import Mathlib

/-! # virocore: the OpenGL material substrate

A shallow embedding of `ViroRenderer/VROMaterialSubstrateOpenGL.cpp`:
the choice of a shader variant for a material, the process-wide pool of
shader programs, lazy hydration, the lighting block, the binding of uniforms
and the sort key; and of the computation of the font header in `getFontData`
of `ios/ViroKit/VROTypefaceiOS.cpp`.

Conventions of the embedding

* `std::string` is `String`, `std::vector<T>` is `List T` (`push_back` appends
  at the end).
* `std::shared_ptr<VROShaderProgram>` is an index into `World.programs`, the
  heap of program objects; two references are the same instance iff the
  indices are equal.
* `std::map<std::string, std::shared_ptr<VROShaderProgram>>` is an association
  list searched from the front.
* `uint32_t` is `Nat` reduced modulo `2 ^ 32` after every operation.
* `float` is IEEE 754 binary32: the sums and products of the sources are
  the exact ones rounded to the nearest value, ties to even.
* An assignment past the end of an array is undefined behaviour: the run of
  the function ends there and nothing after it is modelled.
* The setters of `VROUniform` are recorded as the list of calls made, each
  with the handle it is made on.
-/

namespace ViroRenderer

/-! ## Floats

The `float` of the sources is IEEE 754 binary32. A value is a sign, an
exponent field and a fraction field, or an infinity, or a NaN (of which one
is kept). Sums and products are the exact ones, rounded to the nearest
value, ties to the even fraction. -/

/-- The exponent of the largest power of two that is at most `n`, for
`n ≥ 1`, by halving; `fuel` bounds the number of halvings. -/
def floorLog2Aux : Nat → Nat → Nat
  | 0, _ => 0
  | fuel + 1, n => if n < 2 then 0 else floorLog2Aux fuel (n / 2) + 1

/-- The exponent of the largest power of two that is at most `n`. -/
def floorLog2 (n : Nat) : Nat := floorLog2Aux n n

/-- A binary32 value: finite with its sign bit, exponent field (0 for zero
and the subnormal values, 1 to 254 for the normal ones) and fraction field
of 23 bits; or an infinity with its sign; or a NaN. -/
inductive Float32 where
  | finite (negative : Bool) (exponent : Fin 255) (fraction : Fin 8388608)
  | infinity (negative : Bool)
  | nan
  deriving DecidableEq, Repr

/-- The integer significand of a finite value: the fraction, with the hidden
bit when the value is normal. -/
def Float32.mantissa (exponent : Fin 255) (fraction : Fin 8388608) : Nat :=
  if exponent.val = 0 then fraction.val else 2 ^ 23 + fraction.val

/-- The power of two the integer significand is counted in: the value of a
finite float is `± mantissa * 2 ^ scale`. -/
def Float32.scale (exponent : Fin 255) : Int :=
  if exponent.val = 0 then -149 else (exponent.val : Int) - 150

/-- The quotient `m / 2 ^ k` rounded to the nearest integer, a tie to the
even one. -/
def roundShift (m k : Nat) : Nat :=
  let quotient := m / 2 ^ k
  let remainder := m % 2 ^ k
  if remainder * 2 > 2 ^ k ∨ (remainder * 2 = 2 ^ k ∧ quotient % 2 = 1) then quotient + 1
  else quotient

/-- The binary32 value nearest to `± m * 2 ^ e`, a tie to the even fraction:
the significand is cut to 24 bits, or to the bits above `2 ^ -149` for a
subnormal result, and a result of `2 ^ 128` or more is an infinity. -/
def Float32.round (negative : Bool) (m : Nat) (e : Int) : Float32 :=
  if m = 0 then Float32.finite negative 0 0
  else
    let quantum : Int := max (e + (floorLog2 m + 1 : Nat) - 24) (-149)
    let digits : Nat :=
      if quantum ≤ e then m * 2 ^ (e - quantum).toNat else roundShift m (quantum - e).toNat
    let quantum : Int := if digits = 2 ^ 24 then quantum + 1 else quantum
    let digits : Nat := if digits = 2 ^ 24 then 2 ^ 23 else digits
    if digits < 2 ^ 23 then Float32.finite negative 0 (Fin.ofNat digits)
    else if quantum + 150 ≥ 255 then Float32.infinity negative
    else Float32.finite negative (Fin.ofNat (quantum + 150).toNat) (Fin.ofNat (digits - 2 ^ 23))

/-- The product of two floats, `a * b` of the sources. -/
def Float32.mul : Float32 → Float32 → Float32
  | Float32.nan, _ => Float32.nan
  | _, Float32.nan => Float32.nan
  | Float32.infinity s, Float32.infinity t => Float32.infinity (xor s t)
  | Float32.infinity s, Float32.finite t e f =>
    if Float32.mantissa e f = 0 then Float32.nan else Float32.infinity (xor s t)
  | Float32.finite s e f, Float32.infinity t =>
    if Float32.mantissa e f = 0 then Float32.nan else Float32.infinity (xor s t)
  | Float32.finite s e f, Float32.finite t e' f' =>
    Float32.round (xor s t) (Float32.mantissa e f * Float32.mantissa e' f')
      (Float32.scale e + Float32.scale e')

/-- The sum of two floats, `a + b` of the sources. -/
def Float32.add : Float32 → Float32 → Float32
  | Float32.nan, _ => Float32.nan
  | _, Float32.nan => Float32.nan
  | Float32.infinity s, Float32.infinity t => if s = t then Float32.infinity s else Float32.nan
  | Float32.infinity s, Float32.finite _ _ _ => Float32.infinity s
  | Float32.finite _ _ _, Float32.infinity t => Float32.infinity t
  | Float32.finite s e f, Float32.finite t e' f' =>
    let low : Int := min (Float32.scale e) (Float32.scale e')
    let a : Int := (Float32.mantissa e f * 2 ^ (Float32.scale e - low).toNat : Nat)
    let b : Int := (Float32.mantissa e' f' * 2 ^ (Float32.scale e' - low).toNat : Nat)
    let sum : Int := (if s then -a else a) + (if t then -b else b)
    if sum = 0 then Float32.finite (s && t) 0 0
    else Float32.round (decide (sum < 0)) sum.natAbs low

/-- The float with the other sign. -/
def Float32.neg : Float32 → Float32
  | Float32.finite s e f => Float32.finite (!s) e f
  | Float32.infinity s => Float32.infinity (!s)
  | Float32.nan => Float32.nan

/-- The rational number a finite float stands for. -/
def Float32.toRat : Float32 → Option Rat
  | Float32.finite s e f =>
    some ((if s then -1 else 1) * (Float32.mantissa e f : Rat) * (2 : Rat) ^ Float32.scale e)
  | _ => none

instance : Mul Float32 := ⟨Float32.mul⟩

instance : Add Float32 := ⟨Float32.add⟩

instance : Neg Float32 := ⟨Float32.neg⟩

instance (n : Nat) : OfNat Float32 n := ⟨Float32.round false n 0⟩

/-- The float `0.8f`, bits `3F4CCCCD`. -/
def float_0_8 : Float32 := Float32.finite false 126 5033165

/-- The float `0.5f`, bits `3F000000`. -/
def float_0_5 : Float32 := Float32.finite false 126 0

/-- The float `0.1f`, bits `3DCCCCCD`. -/
def float_0_1 : Float32 := Float32.finite false 123 5033165

/-- The float `0.3f`, bits `3E99999A`. -/
def float_0_3 : Float32 := Float32.finite false 125 1677722

/-! ## Data model -/

/-- The lighting models of `VROMaterial` (`VROLightingModel`). -/
inductive VROLightingModel where
  | Constant
  | Lambert
  | Phong
  | Blinn
  deriving DecidableEq, Repr

/-- What a material channel holds (`VROContentsType`). -/
inductive VROContentsType where
  | Fixed
  | Texture2D
  | TextureCube
  deriving DecidableEq, Repr

/-- A texture, of which the substrate only reads `getTextureId()`. -/
structure VROTexture where
  textureId : Nat
  deriving DecidableEq, Repr

/-- A colour with four components (`VROVector4f`). -/
structure VROVector4f where
  x : Float32
  y : Float32
  z : Float32
  w : Float32
  deriving DecidableEq, Repr

/-- One visual channel of a material (`VROMaterialVisual`). -/
structure VROMaterialVisual where
  contentsType : VROContentsType
  contentsTexture : VROTexture
  contentsColor : VROVector4f
  intensity : Float32
  deriving DecidableEq, Repr

/-- The part of `VROMaterial` the substrate reads. -/
structure VROMaterial where
  lightingModel : VROLightingModel
  diffuse : VROMaterialVisual
  specular : VROMaterialVisual
  reflective : VROMaterialVisual
  transparency : Float32
  shininess : Float32
  writesToDepthBuffer : Bool
  readsFromDepthBuffer : Bool
  deriving DecidableEq, Repr

/-- Types of a uniform (`VROShaderProperty`). -/
inductive VROShaderProperty where
  | Int
  | Float
  | Vec3
  | Vec4
  | Mat4
  deriving DecidableEq, Repr

/-- A uniform declared on a program: the arguments of `addUniform`. -/
structure VROUniform where
  type : VROShaderProperty
  arraySize : Nat
  name : String
  deriving DecidableEq, Repr

/-- The capability bits of `VROShaderMask` that `getPooledShader` requests. -/
inductive VROShaderMask where
  | Tex
  | Norm
  deriving DecidableEq, Repr

/-- Modelled from the spec: `VROShaderProgram` (its header and implementation
are not part of the sources at hand). A program records the two shader names
and the capability mask it was constructed with, its samplers and uniforms in
declaration order, whether it is hydrated, and the numeric identity returned
by `getShaderId()`. `hydrations` is a ghost counter of the calls of
`hydrate()` on this program. -/
structure VROShaderProgram where
  vertexShader : String
  fragmentShader : String
  capabilities : List VROShaderMask
  samplers : List String
  uniforms : List VROUniform
  hydrated : Bool
  hydrations : Nat
  shaderId : Nat
  deriving DecidableEq, Repr

/-- The process-wide state: the heap of program objects and the static map
`_sharedPrograms` from pool names to program references. -/
structure World where
  programs : List VROShaderProgram
  sharedPrograms : List (String × Nat)
  deriving DecidableEq, Repr

/-- The state at process start: no program, an empty pool. -/
def World.empty : World := ⟨[], []⟩

/-- A nullable `VROUniform *` into the substrate's program: the position of
the uniform in the program's uniform table, or `none` for `nullptr`. -/
abbrev UniformHandle := Option Nat

/-- The fields of `VROMaterialSubstrateOpenGL`. -/
structure VROMaterialSubstrateOpenGL where
  material : VROMaterial
  lightingModel : VROLightingModel
  program : Option Nat
  textures : List VROTexture
  diffuseSurfaceColorUniform : UniformHandle
  diffuseIntensityUniform : UniformHandle
  alphaUniform : UniformHandle
  shininessUniform : UniformHandle
  normalMatrixUniform : UniformHandle
  modelMatrixUniform : UniformHandle
  modelViewMatrixUniform : UniformHandle
  modelViewProjectionMatrixUniform : UniformHandle
  cameraPositionUniform : UniformHandle
  deriving DecidableEq, Repr

/-! ## Choosing the shader variant

Each `load…Lighting` function first builds, from the material alone, the two
shader names, the sampler names and the textures it pushes on `_textures`;
then it hands the names to `getPooledShader`. The first half is embedded
here, one function per lighting model, branch for branch. -/

/-- What a `load…Lighting` function has built when it calls
`getPooledShader`: the locals `vertexShader`, `fragmentShader`, `samplers`
and the textures pushed on `_textures`. -/
structure ShaderChoice where
  vertexShader : String
  fragmentShader : String
  samplers : List String
  textures : List VROTexture
  deriving DecidableEq, Repr

/-- The body of `loadConstantLighting` up to the call of `getPooledShader`. -/
def constantChoice (material : VROMaterial) : ShaderChoice :=
  let diffuse := material.diffuse
  let vertexShader := "constant_vsh"
  if diffuse.contentsType = VROContentsType.Fixed then
    ⟨vertexShader, "constant_c_fsh", [], []⟩
  else if diffuse.contentsType = VROContentsType.Texture2D then
    ⟨vertexShader, "constant_t_fsh", ["sampler"], [diffuse.contentsTexture]⟩
  else
    ⟨vertexShader, "constant_q_fsh", ["sampler"], [diffuse.contentsTexture]⟩

/-- The body of `loadLambertLighting` up to the call of `getPooledShader`. -/
def lambertChoice (material : VROMaterial) : ShaderChoice :=
  let vertexShader := "lambert_vsh"
  let diffuse := material.diffuse
  let reflective := material.reflective
  if diffuse.contentsType = VROContentsType.Fixed then
    if reflective.contentsType = VROContentsType.TextureCube then
      ⟨vertexShader, "lambert_c_reflect_fsh", ["reflect_texture"],
        [reflective.contentsTexture]⟩
    else
      ⟨vertexShader, "lambert_c_fsh", [], []⟩
  else
    if reflective.contentsType = VROContentsType.TextureCube then
      ⟨vertexShader, "lambert_t_reflect_fsh", ["texture", "reflect_texture"],
        [diffuse.contentsTexture, reflective.contentsTexture]⟩
    else
      ⟨vertexShader, "lambert_t_fsh", ["texture"], [diffuse.contentsTexture]⟩

/-- The body of `loadPhongLighting` after the fallback test (the specular
channel is a 2D texture) up to the call of `getPooledShader`. -/
def phongChoice (material : VROMaterial) : ShaderChoice :=
  let vertexShader := "phong_vsh"
  let specular := material.specular
  let diffuse := material.diffuse
  let reflective := material.reflective
  if diffuse.contentsType = VROContentsType.Fixed then
    if reflective.contentsType = VROContentsType.TextureCube then
      ⟨vertexShader, "phong_c_reflect_fsh", ["specular_texture", "reflect_texture"],
        [specular.contentsTexture, reflective.contentsTexture]⟩
    else
      ⟨vertexShader, "phong_c_fsh", ["specular_texture"], [specular.contentsTexture]⟩
  else
    if reflective.contentsType = VROContentsType.TextureCube then
      ⟨vertexShader, "phong_t_reflect_fsh",
        ["diffuse_texture", "specular_texture", "reflect_texture"],
        [diffuse.contentsTexture, specular.contentsTexture, reflective.contentsTexture]⟩
    else
      ⟨vertexShader, "phong_t_fsh", ["diffuse_texture", "specular_texture"],
        [diffuse.contentsTexture, specular.contentsTexture]⟩

/-- The body of `loadBlinnLighting` after the fallback test up to the call
of `getPooledShader`. -/
def blinnChoice (material : VROMaterial) : ShaderChoice :=
  let vertexShader := "blinn_vsh"
  let specular := material.specular
  let diffuse := material.diffuse
  let reflective := material.reflective
  if diffuse.contentsType = VROContentsType.Fixed then
    if reflective.contentsType = VROContentsType.TextureCube then
      ⟨vertexShader, "blinn_c_reflect_fsh", ["specular_texture", "reflect_texture"],
        [specular.contentsTexture, reflective.contentsTexture]⟩
    else
      ⟨vertexShader, "blinn_c_fsh", ["specular_texture"], [specular.contentsTexture]⟩
  else
    if reflective.contentsType = VROContentsType.TextureCube then
      ⟨vertexShader, "blinn_t_reflect_fsh",
        ["diffuse_texture", "specular_texture", "reflect_texture"],
        [diffuse.contentsTexture, specular.contentsTexture, reflective.contentsTexture]⟩
    else
      ⟨vertexShader, "blinn_t_fsh", ["diffuse_texture", "specular_texture"],
        [diffuse.contentsTexture, specular.contentsTexture]⟩

/-- The resolution the constructor performs: the switch on the lighting
model, and inside `loadPhongLighting` and `loadBlinnLighting` the fallback to
`loadLambertLighting` when the specular channel is not a 2D texture. -/
def resolve (material : VROMaterial) : ShaderChoice :=
  match material.lightingModel with
  | VROLightingModel.Constant => constantChoice material
  | VROLightingModel.Blinn =>
    if material.specular.contentsType ≠ VROContentsType.Texture2D then
      lambertChoice material
    else blinnChoice material
  | VROLightingModel.Lambert => lambertChoice material
  | VROLightingModel.Phong =>
    if material.specular.contentsType ≠ VROContentsType.Texture2D then
      lambertChoice material
    else phongChoice material

/-! ## The program object -/

/-- Modelled from the spec: `VROShaderProgram::addSampler`, which registers a
sampler name after the ones already declared. -/
def VROShaderProgram.addSampler (program : VROShaderProgram) (sampler : String) :
    VROShaderProgram :=
  { program with samplers := program.samplers ++ [sampler] }

/-- Modelled from the spec: `VROShaderProgram::addUniform`, which declares a
uniform after the ones already declared and returns a handle to it. -/
def VROShaderProgram.addUniform (program : VROShaderProgram) (type : VROShaderProperty)
    (arraySize : Nat) (name : String) : VROShaderProgram × UniformHandle :=
  ({ program with uniforms := program.uniforms ++ [⟨type, arraySize, name⟩] },
    some program.uniforms.length)

/-- Modelled from the spec: `VROShaderProgram::getUniform`, the handle of the
first declared uniform of that name, `nullptr` when there is none. -/
def VROShaderProgram.getUniform (program : VROShaderProgram) (name : String) :
    UniformHandle :=
  program.uniforms.findIdx? (fun u => u.name == name)

/-- Modelled from the spec: `VROShaderProgram::isHydrated`. -/
def VROShaderProgram.isHydrated (program : VROShaderProgram) : Bool :=
  program.hydrated

/-- Modelled from the spec: `VROShaderProgram::hydrate`, taken to succeed and
to mark the program as hydrated; the ghost counter records the call. -/
def VROShaderProgram.hydrate (program : VROShaderProgram) : VROShaderProgram :=
  { program with hydrated := true, hydrations := program.hydrations + 1 }

/-! ## The pool of shared programs -/

/-- The pool name computed by `getPooledShader`. -/
def pooledName (vertexShader fragmentShader : String) : String :=
  vertexShader ++ "_" ++ fragmentShader

/-- The embedding of `getPooledShader`: looks the pool name up in
`_sharedPrograms`; when it is absent a new program is made from the two
names, given the samplers in order and stored under the name; when present
the stored reference is returned. The numeric identity of a new program is
the number of programs made before it. -/
def getPooledShader (vertexShader fragmentShader : String) (samplers : List String)
    (w : World) : Nat × World :=
  let name := pooledName vertexShader fragmentShader
  match w.sharedPrograms.lookup name with
  | none =>
    let program : VROShaderProgram :=
      ⟨vertexShader, fragmentShader, [VROShaderMask.Tex, VROShaderMask.Norm], [], [],
        false, 0, w.programs.length⟩
    let program := samplers.foldl VROShaderProgram.addSampler program
    let ref := w.programs.length
    (ref, ⟨w.programs ++ [program], (name, ref) :: w.sharedPrograms⟩)
  | some ref => (ref, w)

/-! ## Uniforms and hydration -/

/-- The constant `kMaxLights`. -/
def kMaxLights : Nat := 4

/-- The nine uniforms `addUniforms` declares for the light of index `i`. -/
def addLightUniforms (program : VROShaderProgram) (i : Nat) : VROShaderProgram :=
  let pre := "lighting.lights[" ++ toString i ++ "]."
  let program := (program.addUniform VROShaderProperty.Int 1 (pre ++ "type")).1
  let program := (program.addUniform VROShaderProperty.Vec3 1 (pre ++ "position")).1
  let program := (program.addUniform VROShaderProperty.Vec3 1 (pre ++ "direction")).1
  let program := (program.addUniform VROShaderProperty.Vec3 1 (pre ++ "color")).1
  let program :=
    (program.addUniform VROShaderProperty.Float 1 (pre ++ "attenuation_start_distance")).1
  let program :=
    (program.addUniform VROShaderProperty.Float 1 (pre ++ "attenuation_end_distance")).1
  let program :=
    (program.addUniform VROShaderProperty.Float 1 (pre ++ "attenuation_falloff_exp")).1
  let program := (program.addUniform VROShaderProperty.Float 1 (pre ++ "spot_inner_angle")).1
  (program.addUniform VROShaderProperty.Float 1 (pre ++ "spot_outer_angle")).1

/-- The embedding of `addUniforms`: declares the lighting, view and material
uniforms on the program and keeps the handles of the last eight. -/
def addUniforms (self : VROMaterialSubstrateOpenGL) (program : VROShaderProgram) :
    VROMaterialSubstrateOpenGL × VROShaderProgram :=
  let program := (program.addUniform VROShaderProperty.Int 1 "lighting.num_lights").1
  let program := (program.addUniform VROShaderProperty.Vec3 1 "lighting.ambient_light_color").1
  let program := (List.range kMaxLights).foldl addLightUniforms program
  let program := (program.addUniform VROShaderProperty.Vec3 1 "ambient_light_color").1
  let (program, normalMatrix) := program.addUniform VROShaderProperty.Mat4 1 "normal_matrix"
  let (program, modelMatrix) := program.addUniform VROShaderProperty.Mat4 1 "model_matrix"
  let (program, modelView) := program.addUniform VROShaderProperty.Mat4 1 "modelview_matrix"
  let (program, modelViewProjection) :=
    program.addUniform VROShaderProperty.Mat4 1 "modelview_projection_matrix"
  let (program, cameraPosition) :=
    program.addUniform VROShaderProperty.Vec3 1 "camera_position"
  let (program, diffuseSurfaceColor) :=
    program.addUniform VROShaderProperty.Vec4 1 "material_diffuse_surface_color"
  let (program, diffuseIntensity) :=
    program.addUniform VROShaderProperty.Float 1 "material_diffuse_intensity"
  let (program, alpha) := program.addUniform VROShaderProperty.Float 1 "material_alpha"
  ({ self with
      normalMatrixUniform := normalMatrix
      modelMatrixUniform := modelMatrix
      modelViewMatrixUniform := modelView
      modelViewProjectionMatrixUniform := modelViewProjection
      cameraPositionUniform := cameraPosition
      diffuseSurfaceColorUniform := diffuseSurfaceColor
      diffuseIntensityUniform := diffuseIntensity
      alphaUniform := alpha },
    program)

/-- The embedding of `loadUniforms`: looks the eight handles up by name and
declares nothing. -/
def loadUniforms (self : VROMaterialSubstrateOpenGL) (program : VROShaderProgram) :
    VROMaterialSubstrateOpenGL :=
  { self with
    diffuseSurfaceColorUniform := program.getUniform "material_diffuse_surface_color"
    diffuseIntensityUniform := program.getUniform "material_diffuse_intensity"
    alphaUniform := program.getUniform "material_alpha"
    normalMatrixUniform := program.getUniform "normal_matrix"
    modelMatrixUniform := program.getUniform "model_matrix"
    modelViewMatrixUniform := program.getUniform "modelview_matrix"
    modelViewProjectionMatrixUniform := program.getUniform "modelview_projection_matrix"
    cameraPositionUniform := program.getUniform "camera_position" }

/-- The embedding of `hydrateProgram`: hydrates the program; the binding of
the lighting block to its binding point changes nothing modelled here. -/
def hydrateProgram (program : VROShaderProgram) : VROShaderProgram :=
  program.hydrate

/-! ## The `load…Lighting` functions and the constructor -/

/-- The tail shared by `loadConstantLighting` and `loadLambertLighting`: the
chosen textures are pushed on `_textures`, the program is taken from the
pool, and it is either given its uniforms and hydrated, or, when it is
hydrated already, its handles are looked up. A reference that points
outside the heap leaves the substrate without handles. -/
def loadPooled (choice : ShaderChoice) (self : VROMaterialSubstrateOpenGL) (w : World) :
    VROMaterialSubstrateOpenGL × World :=
  let self := { self with textures := self.textures ++ choice.textures }
  let (ref, w) := getPooledShader choice.vertexShader choice.fragmentShader choice.samplers w
  let self := { self with program := some ref }
  match w.programs[ref]? with
  | none => (self, w)
  | some program =>
    if !program.isHydrated then
      let (self, program) := addUniforms self program
      let program := hydrateProgram program
      (self, { w with programs := w.programs.set ref program })
    else
      (loadUniforms self program, w)

/-- The tail shared by `loadPhongLighting` and `loadBlinnLighting`: as
`loadPooled`, with the shininess uniform declared on a program that is not
hydrated and looked up on one that is. -/
def loadPooledShiny (choice : ShaderChoice) (self : VROMaterialSubstrateOpenGL) (w : World) :
    VROMaterialSubstrateOpenGL × World :=
  let self := { self with textures := self.textures ++ choice.textures }
  let (ref, w) := getPooledShader choice.vertexShader choice.fragmentShader choice.samplers w
  let self := { self with program := some ref }
  match w.programs[ref]? with
  | none => (self, w)
  | some program =>
    if !program.isHydrated then
      let (self, program) := addUniforms self program
      let (program, shininess) :=
        program.addUniform VROShaderProperty.Float 1 "material_shininess"
      let self := { self with shininessUniform := shininess }
      let program := hydrateProgram program
      (self, { w with programs := w.programs.set ref program })
    else
      let self := { self with shininessUniform := program.getUniform "material_shininess" }
      (loadUniforms self program, w)

/-- The embedding of `loadConstantLighting`. -/
def loadConstantLighting (material : VROMaterial) (self : VROMaterialSubstrateOpenGL)
    (w : World) : VROMaterialSubstrateOpenGL × World :=
  loadPooled (constantChoice material) self w

/-- The embedding of `loadLambertLighting`. -/
def loadLambertLighting (material : VROMaterial) (self : VROMaterialSubstrateOpenGL)
    (w : World) : VROMaterialSubstrateOpenGL × World :=
  loadPooled (lambertChoice material) self w

/-- The embedding of `loadPhongLighting`: without a specular map it falls
back to `loadLambertLighting`. -/
def loadPhongLighting (material : VROMaterial) (self : VROMaterialSubstrateOpenGL)
    (w : World) : VROMaterialSubstrateOpenGL × World :=
  if material.specular.contentsType ≠ VROContentsType.Texture2D then
    loadLambertLighting material self w
  else
    loadPooledShiny (phongChoice material) self w

/-- The embedding of `loadBlinnLighting`: without a specular map it falls
back to `loadLambertLighting`. -/
def loadBlinnLighting (material : VROMaterial) (self : VROMaterialSubstrateOpenGL)
    (w : World) : VROMaterialSubstrateOpenGL × World :=
  if material.specular.contentsType ≠ VROContentsType.Texture2D then
    loadLambertLighting material self w
  else
    loadPooledShiny (blinnChoice material) self w

/-- The member initialisers of the constructor: no program, no texture,
every handle null. -/
def VROMaterialSubstrateOpenGL.initial (material : VROMaterial) :
    VROMaterialSubstrateOpenGL :=
  { material := material
    lightingModel := material.lightingModel
    program := none
    textures := []
    diffuseSurfaceColorUniform := none
    diffuseIntensityUniform := none
    alphaUniform := none
    shininessUniform := none
    normalMatrixUniform := none
    modelMatrixUniform := none
    modelViewMatrixUniform := none
    modelViewProjectionMatrixUniform := none
    cameraPositionUniform := none }

/-- The embedding of the constructor of `VROMaterialSubstrateOpenGL`: the
switch on the lighting model of the material. -/
def construct (material : VROMaterial) (w : World) : VROMaterialSubstrateOpenGL × World :=
  let self := VROMaterialSubstrateOpenGL.initial material
  match material.lightingModel with
  | VROLightingModel.Constant => loadConstantLighting material self w
  | VROLightingModel.Blinn => loadBlinnLighting material self w
  | VROLightingModel.Lambert => loadLambertLighting material self w
  | VROLightingModel.Phong => loadPhongLighting material self w

/-- A run of constructions, one substrate per material, all on the same
process-wide state. -/
def constructAll (materials : List VROMaterial) (w : World) : World :=
  materials.foldl (fun w material => (construct material w).2) w

/-- A run of acquisitions from the pool, each a vertex name, a fragment name
and a sampler list. -/
def acquireAll (calls : List (String × String × List String)) (w : World) : World :=
  calls.foldl (fun w call => (getPooledShader call.1 call.2.1 call.2.2 w).2) w

/-! ## The sort key -/

/-- The two fields of `VROSortKey` the substrate writes. -/
structure VROSortKey where
  shader : Nat
  textures : Nat
  deriving DecidableEq, Repr

/-- The embedding of `hashTextures`: `h = 31 * h + id` in `uint32_t`,
over the textures in order. -/
def hashTextures (textures : List VROTexture) : Nat :=
  textures.foldl (fun h texture => (31 * h + texture.textureId) % 2 ^ 32) 0

/-- The embedding of `updateSortKey`: the shader field is the identity of
the substrate's program, the textures field the hash of `_textures`. The
result is `none` when the substrate has no program in the heap. -/
def updateSortKey (self : VROMaterialSubstrateOpenGL) (w : World) (key : VROSortKey) :
    Option VROSortKey :=
  match self.program with
  | none => none
  | some ref =>
    match w.programs[ref]? with
    | none => none
    | some program =>
      some { key with shader := program.shaderId, textures := hashTextures self.textures }

/-! ## Sample materials -/

/-- A channel holding a fixed colour. -/
def fixedVisual : VROMaterialVisual := ⟨VROContentsType.Fixed, ⟨0⟩, ⟨1, 1, 1, 1⟩, 1⟩

/-- A channel holding the 2D texture of identity `t`. -/
def textureVisual (t : Nat) : VROMaterialVisual :=
  ⟨VROContentsType.Texture2D, ⟨t⟩, ⟨1, 1, 1, 1⟩, 1⟩

/-- A channel holding the cube texture of identity `t`. -/
def cubeVisual (t : Nat) : VROMaterialVisual :=
  ⟨VROContentsType.TextureCube, ⟨t⟩, ⟨1, 1, 1, 1⟩, 1⟩

/-- A material with the given lighting model and channels, opaque, reading
and writing depth. -/
def sampleMaterial (model : VROLightingModel) (diffuse specular reflective : VROMaterialVisual) :
    VROMaterial :=
  ⟨model, diffuse, specular, reflective, 1, 2, true, true⟩

/-- The stem of the shader names of a lighting model. -/
def shaderStem : VROLightingModel → String
  | VROLightingModel.Constant => "constant"
  | VROLightingModel.Lambert => "lambert"
  | VROLightingModel.Phong => "phong"
  | VROLightingModel.Blinn => "blinn"

/-! ## Notions the statements are written in -/

/-- The program `getPooledShader` makes on a miss: the two names, the
capability mask, the samplers in order, nothing else declared, not
hydrated. -/
def freshProgram (vertexShader fragmentShader : String) (samplers : List String) (id : Nat) :
    VROShaderProgram :=
  ⟨vertexShader, fragmentShader, [VROShaderMask.Tex, VROShaderMask.Norm], samplers, [],
    false, 0, id⟩

/-- The fields of a program other than its uniform table. -/
def VROShaderProgram.frame (p : VROShaderProgram) :
    String × String × List VROShaderMask × List String × Bool × Nat × Nat :=
  (p.vertexShader, p.fragmentShader, p.capabilities, p.samplers, p.hydrated, p.hydrations,
    p.shaderId)

/-- Whether the constructor for this material ends in the tail that declares
the shininess uniform. -/
def usesShininess (material : VROMaterial) : Prop :=
  (material.lightingModel = VROLightingModel.Phong ∨
    material.lightingModel = VROLightingModel.Blinn) ∧
  material.specular.contentsType = VROContentsType.Texture2D

instance (material : VROMaterial) : Decidable (usesShininess material) := by
  unfold usesShininess; infer_instance

/-- The substrate a construction starts its tail with: the members as
initialised, the textures of the resolution, the program reference. -/
def boundSubstrate (material : VROMaterial) (ref : Nat) : VROMaterialSubstrateOpenGL :=
  { VROMaterialSubstrateOpenGL.initial material with
    textures := (resolve material).textures, program := some ref }

/-- The program the first construction for a material leaves in the heap at
position `ref`: made by the pool from the resolution, given its uniforms
(with the shininess uniform when the tail declares it), then hydrated. -/
def firstUseProgram (material : VROMaterial) (ref : Nat) : VROShaderProgram :=
  let fresh := freshProgram (resolve material).vertexShader (resolve material).fragmentShader
    (resolve material).samplers ref
  let declared := (addUniforms (boundSubstrate material ref) fresh).2
  if usesShininess material then
    hydrateProgram (declared.addUniform VROShaderProperty.Float 1 "material_shininess").1
  else hydrateProgram declared

/-- The substrate of a construction that finds its program hydrated: every
handle is looked up by name. -/
def laterUseSubstrate (material : VROMaterial) (ref : Nat) (program : VROShaderProgram) :
    VROMaterialSubstrateOpenGL :=
  if usesShininess material then
    loadUniforms { boundSubstrate material ref with
      shininessUniform := program.getUniform "material_shininess" } program
  else loadUniforms (boundSubstrate material ref) program

/-- The pool name the constructor computes for a material. -/
def materialPooledName (material : VROMaterial) : String :=
  pooledName (resolve material).vertexShader (resolve material).fragmentShader

/-- The invariant of the process-wide state: every program of the heap is
hydrated and was hydrated once, and every reference of the pool points into
the heap. -/
def World.Settled (w : World) : Prop :=
  (∀ p ∈ w.programs, p.hydrated = true ∧ p.hydrations = 1) ∧
  (∀ name ref, w.sharedPrograms.lookup name = some ref → ref < w.programs.length)

/-- The polynomial of the texture identities: the identity at position `i` of
`n` textures is weighted by `31 ^ (n - 1 - i)`. -/
def texturePolynomial (textures : List VROTexture) : Nat :=
  ∑ i ∈ Finset.range textures.length,
    (textures.getD i ⟨0⟩).textureId * 31 ^ (textures.length - 1 - i)

/-- The tail of the `load…Lighting` function the constructor ends in: the one
with the shininess uniform exactly for a Phong or Blinn material with a
specular map. -/
def loadTail (material : VROMaterial) :
    ShaderChoice → VROMaterialSubstrateOpenGL → World → VROMaterialSubstrateOpenGL × World :=
  if (material.lightingModel = VROLightingModel.Phong ∨
      material.lightingModel = VROLightingModel.Blinn) ∧
      material.specular.contentsType = VROContentsType.Texture2D then
    loadPooledShiny
  else loadPooled

/-! ## The lighting block -/

/-- A vector of three floats (`VROVector3f`). -/
structure VROVector3f where
  x : Float32
  y : Float32
  z : Float32
  deriving DecidableEq, Repr

/-- Modelled from the spec: the default constructor of `VROVector3f`, which
is not part of the sources at hand: the zero vector. -/
def VROVector3f.zero : VROVector3f := ⟨0, 0, 0⟩

/-- Modelled from the spec: `operator+=` of `VROVector3f`, the component-wise
sum of floats. -/
def VROVector3f.add (a b : VROVector3f) : VROVector3f :=
  ⟨a.x + b.x, a.y + b.y, a.z + b.z⟩

/-- The types of a light (`VROLightType`). -/
inductive VROLightType where
  | Ambient
  | Directional
  | Point
  | Spot
  deriving DecidableEq, Repr

/-- The part of `VROLight` that `bindLights` reads through its getters. -/
structure VROLight where
  type : VROLightType
  transformedPosition : VROVector3f
  direction : VROVector3f
  color : VROVector3f
  attenuationStartDistance : Float32
  attenuationEndDistance : Float32
  attenuationFalloffExponent : Float32
  spotInnerAngle : Float32
  spotOuterAngle : Float32
  deriving DecidableEq, Repr

/-- The fields of `VROLightData` that `bindLights` assigns. Of `position` and
`direction` the first three floats are assigned, the fourth and the padding
floats never. The `type` field holds the enumerator whose integer value is
stored. -/
structure VROLightData where
  type : VROLightType
  attenuation_start_distance : Float32
  attenuation_end_distance : Float32
  attenuation_falloff_exp : Float32
  position : VROVector3f
  direction : VROVector3f
  color : VROVector3f
  spot_inner_angle : Float32
  spot_outer_angle : Float32
  deriving DecidableEq, Repr

/-- The number of elements of the array `lights` of `VROLightingData`. -/
def lightsCapacity : Nat := 8

/-- The local `data` of `bindLights`, a `VROLightingData`: the count, the
ambient colour (`none` until `toArray` has written it) and the eight slots
of `lights` (`none` for a slot never assigned). -/
structure VROLightingData where
  num_lights : Int
  ambient_light_color : Option VROVector3f
  lights : List (Option VROLightData)
  deriving DecidableEq, Repr

/-- The cast `(int)` of a `size_t`: reduction modulo `2 ^ 32` read as a
signed 32-bit value. -/
def castToInt (n : Nat) : Int :=
  if n % 2 ^ 32 < 2 ^ 31 then ((n % 2 ^ 32 : Nat) : Int) else ((n % 2 ^ 32 : Nat) : Int) - 2 ^ 32

/-- The state of the loop of `bindLights`: the local `data`, the local
`ambientLight`, and, as a ghost, the assignment to `data.lights[i]` with `i`
outside the array, if the loop has come to one. From that assignment on the
behaviour of `bindLights` is undefined: the state is the one just before it
and nothing the function does after it is modelled. -/
structure BindLightsState where
  data : VROLightingData
  ambientLight : VROVector3f
  outOfBounds : List (Nat × VROLightData)
  deriving DecidableEq, Repr

/-- The nine assignments of the loop body of `bindLights`, as the record they
give to `data.lights[i]`. -/
def lightRecord (light : VROLight) : VROLightData :=
  { type := light.type
    position := light.transformedPosition
    direction := light.direction
    color := light.color
    attenuation_start_distance := light.attenuationStartDistance
    attenuation_end_distance := light.attenuationEndDistance
    attenuation_falloff_exp := light.attenuationFalloffExponent
    spot_inner_angle := light.spotInnerAngle
    spot_outer_angle := light.spotOuterAngle }

/-- One turn of the loop of `bindLights` for index `i`. With `i` inside the
array: the assignments to `data.lights[i]` and the addition of the colour of
an ambient light to `ambientLight`. With `i` outside the array: the first
assignment is recorded as out of bounds and nothing else is done. The loop
has no test of `i` against the size of the array. -/
def bindLightsBody (st : BindLightsState) (i : Nat) (light : VROLight) : BindLightsState :=
  if i < lightsCapacity then
    let st : BindLightsState :=
      { st with
        data := { st.data with lights := st.data.lights.set i (some (lightRecord light)) } }
    if light.type = VROLightType.Ambient then
      { st with ambientLight := st.ambientLight.add light.color }
    else st
  else
    { st with outOfBounds := st.outOfBounds ++ [(i, lightRecord light)] }

/-- The loop `for (int i = 0; i < lights.size(); i++)` of `bindLights`, from
index `i` on, over the lights that remain. The run ends at the first turn
whose index is outside the array, where the behaviour is undefined. -/
def bindLightsLoop : List VROLight → Nat → BindLightsState → BindLightsState
  | [], _, st => st
  | light :: rest, i, st =>
    if i < lightsCapacity then bindLightsLoop rest (i + 1) (bindLightsBody st i light)
    else bindLightsBody st i light

/-- The embedding of `bindLights`: the state after the loop, with the
ambient colour written to `data` by `toArray` when the loop has made no
assignment out of bounds. -/
def bindLights (lights : List VROLight) : BindLightsState :=
  let data : VROLightingData :=
    { num_lights := castToInt lights.length
      ambient_light_color := none
      lights := List.replicate lightsCapacity none }
  let st := bindLightsLoop lights 0 ⟨data, VROVector3f.zero, []⟩
  if st.outOfBounds = [] then
    { st with data := { st.data with ambient_light_color := some st.ambientLight } }
  else st

/-- The record `bindLights` hands to `glBufferSubData`: `none` when the loop
has assigned out of bounds, so that the behaviour is undefined before the
call is reached. -/
def uploadedLighting (lights : List VROLight) : Option VROLightingData :=
  if (bindLights lights).outOfBounds = [] then some (bindLights lights).data else none

/-- A light of the given type and colour at the origin. -/
def sampleLight (type : VROLightType) (r g b : Float32) : VROLight :=
  ⟨type, ⟨0, 0, 0⟩, ⟨0, 0, -1⟩, ⟨r, g, b⟩, 2, 10, 2, 0, 45⟩

/-- Nine lights: seven directional, then a point light, then an ambient one. -/
def nineLights : List VROLight :=
  List.replicate 7 (sampleLight VROLightType.Directional 1 1 1)
    ++ [sampleLight VROLightType.Point 1 0 0,
      sampleLight VROLightType.Ambient 1 2 3]

/-! ## Binding uniforms -/

/-- Modelled from the spec: the methods of `VROMatrix4f` that
`bindViewUniforms` calls, whose code is not part of the sources at hand,
taken as parameters over a type `M` of matrices: `invert a` is `a.invert()`,
the inverse, `transpose a` is `a.transpose()`, and `multiply a b` is
`a.multiply(b)`, the product with the receiver `a` on the left. -/
structure VROMatrix4fOps (M : Type) where
  invert : M → M
  transpose : M → M
  multiply : M → M → M

/-- The value a setter of `VROUniform` is called with: `setMat4`, `setVec3`,
`setVec4` or `setFloat`. -/
inductive UniformValue (M : Type) where
  | mat4 (m : M)
  | vec3 (v : VROVector3f)
  | vec4 (v : VROVector4f)
  | float (f : Float32)
  deriving DecidableEq, Repr

/-- A call of a setter: the handle it is made on and the value. -/
abbrev UniformWrite (M : Type) := Nat × UniformValue M

/-- The statement `if (handle != nullptr) handle->set(value)`: the call is
appended to the calls made so far when the handle is present. -/
def writeIfPresent {M : Type} (writes : List (UniformWrite M)) (handle : UniformHandle)
    (value : UniformValue M) : List (UniformWrite M) :=
  match handle with
  | some u => writes ++ [(u, value)]
  | none => writes

/-- The embedding of `bindViewUniforms`: the setter calls it makes, in
order. -/
def bindViewUniforms {M : Type} (ops : VROMatrix4fOps M) (self : VROMaterialSubstrateOpenGL)
    (transform modelview projectionMatrix : M) (cameraPosition : VROVector3f) :
    List (UniformWrite M) :=
  let writes : List (UniformWrite M) := []
  let writes := writeIfPresent writes self.normalMatrixUniform
    (UniformValue.mat4 (ops.transpose (ops.invert transform)))
  let writes := writeIfPresent writes self.modelMatrixUniform (UniformValue.mat4 transform)
  let writes := writeIfPresent writes self.modelViewMatrixUniform (UniformValue.mat4 modelview)
  let writes := writeIfPresent writes self.modelViewProjectionMatrixUniform
    (UniformValue.mat4 (ops.multiply projectionMatrix modelview))
  writeIfPresent writes self.cameraPositionUniform (UniformValue.vec3 cameraPosition)

/-- The embedding of `bindMaterialUniforms`: the setter calls it makes, in
order. The product of the transparency and the opacity is the product of
two floats. -/
def bindMaterialUniforms (M : Type) (self : VROMaterialSubstrateOpenGL) (opacity : Float32) :
    List (UniformWrite M) :=
  let writes : List (UniformWrite M) := []
  let writes := writeIfPresent writes self.diffuseSurfaceColorUniform
    (UniformValue.vec4 self.material.diffuse.contentsColor)
  let writes := writeIfPresent writes self.diffuseIntensityUniform
    (UniformValue.float self.material.diffuse.intensity)
  let writes := writeIfPresent writes self.alphaUniform
    (UniformValue.float (self.material.transparency * opacity))
  writeIfPresent writes self.shininessUniform (UniformValue.float self.material.shininess)

/-- Matrices as terms over named matrices and the three operations. -/
inductive MatrixTerm where
  | named (name : String)
  | invert (a : MatrixTerm)
  | transpose (a : MatrixTerm)
  | multiply (a b : MatrixTerm)
  deriving DecidableEq, Repr

/-- The three operations on matrix terms. -/
def MatrixTerm.ops : VROMatrix4fOps MatrixTerm :=
  ⟨MatrixTerm.invert, MatrixTerm.transpose, MatrixTerm.multiply⟩

/-- A Constant material with a fixed diffuse colour and transparency `0.8f`. -/
def glassMaterial : VROMaterial :=
  ⟨VROLightingModel.Constant, fixedVisual, fixedVisual, fixedVisual, float_0_8, 2, true, true⟩

/-- The uniforms `addUniforms` declares on a program that has none, in
declaration order. -/
def declaredUniforms : List VROUniform :=
  (addUniforms (VROMaterialSubstrateOpenGL.initial glassMaterial)
    (freshProgram "" "" [] 0)).2.uniforms

/-- The nine uniforms `addUniforms` declares for the light of index `i`. -/
def lightDeclarations (i : Nat) : List VROUniform :=
  (addLightUniforms (freshProgram "" "" [] 0) i).uniforms

/-- The handles `addUniforms` keeps, on a program that had no uniform: the
positions 39 to 46 of the uniform table. -/
def withDeclaredHandles (self : VROMaterialSubstrateOpenGL) : VROMaterialSubstrateOpenGL :=
  { self with
    normalMatrixUniform := some 39
    modelMatrixUniform := some 40
    modelViewMatrixUniform := some 41
    modelViewProjectionMatrixUniform := some 42
    cameraPositionUniform := some 43
    diffuseSurfaceColorUniform := some 44
    diffuseIntensityUniform := some 45
    alphaUniform := some 46 }

/-- The substrate of a material whose program is at `ref`: the textures of
the resolution, the eight handles of `addUniforms`, and the shininess handle,
position 47, exactly when the constructor ends in the tail that declares
it. -/
def resolvedSubstrate (material : VROMaterial) (ref : Nat) : VROMaterialSubstrateOpenGL :=
  { withDeclaredHandles (boundSubstrate material ref) with
    shininessUniform := if usesShininess material then some 47 else none }

/-- The invariant that every reference of the pool points to the program the
first construction under that pool name has left there. -/
def World.Made (w : World) : Prop :=
  ∀ name ref, w.sharedPrograms.lookup name = some ref →
    ∃ material, materialPooledName material = name ∧
      w.programs[ref]? = some (firstUseProgram material ref)

/-! ## The variants of the pool -/

/-- The material with the given lighting model and content types, every
texture, colour and scalar being zero. -/
def canonicalMaterial (model : VROLightingModel) (diffuse specular reflective : VROContentsType) :
    VROMaterial :=
  ⟨model, ⟨diffuse, ⟨0⟩, ⟨0, 0, 0, 0⟩, 0⟩, ⟨specular, ⟨0⟩, ⟨0, 0, 0, 0⟩, 0⟩,
    ⟨reflective, ⟨0⟩, ⟨0, 0, 0, 0⟩, 0⟩, 0, 0, false, false⟩

/-- What the pool receives from the constructor for a material: the two
shader names, the sampler names, and whether the tail that declares the
shininess uniform is taken. -/
structure Variant where
  vertexShader : String
  fragmentShader : String
  samplers : List String
  shininess : Bool
  deriving DecidableEq, Repr

/-- The variant of a material. -/
def variantOf (material : VROMaterial) : Variant :=
  ⟨(resolve material).vertexShader, (resolve material).fragmentShader,
    (resolve material).samplers, decide (usesShininess material)⟩

/-- The four lighting models. -/
def allLightingModels : List VROLightingModel :=
  [VROLightingModel.Constant, VROLightingModel.Lambert, VROLightingModel.Phong,
    VROLightingModel.Blinn]

/-- The three content types. -/
def allContentsTypes : List VROContentsType :=
  [VROContentsType.Fixed, VROContentsType.Texture2D, VROContentsType.TextureCube]

/-- The pool name and the variant of every combination of a lighting model
and three content types. -/
def variantTable : List (String × Variant) :=
  allLightingModels.flatMap fun model =>
    allContentsTypes.flatMap fun diffuse =>
      allContentsTypes.flatMap fun specular =>
        allContentsTypes.map fun reflective =>
          (materialPooledName (canonicalMaterial model diffuse specular reflective),
            variantOf (canonicalMaterial model diffuse specular reflective))

/-- The uniform the tails of `loadPhongLighting` and `loadBlinnLighting`
declare after those of `addUniforms`. -/
def shininessDeclaration : VROUniform :=
  ⟨VROShaderProperty.Float, 1, "material_shininess"⟩

/-! ## The layout of the lighting block

The two `typedef struct` of the lighting block as data, and the layout rule
of C for them: a member is placed at the next multiple of its alignment, an
array is its elements one after the other, and a struct is as large as the
end of its last member rounded up to its own alignment. An `int` and a
`float` take four bytes and are aligned to four bytes. -/

mutual
/-- The types of the members of the two structs. -/
inductive CType where
  | int
  | float
  | array (elem : CType) (count : Nat)
  | struct (members : CMembers)
/-- The members of a struct, in declaration order. -/
inductive CMembers where
  | nil
  | cons (name : String) (type : CType) (rest : CMembers)
end

/-- The next multiple of `a` from `n` on. -/
def roundUp (n a : Nat) : Nat := (n + a - 1) / a * a

mutual
/-- The alignment of a type. -/
def CType.align : CType → Nat
  | CType.int => 4
  | CType.float => 4
  | CType.array elem _ => elem.align
  | CType.struct members => members.align
/-- The largest alignment of the members. -/
def CMembers.align : CMembers → Nat
  | CMembers.nil => 1
  | CMembers.cons _ type rest => max type.align rest.align
end

mutual
/-- The size of a type, `sizeof`. -/
def CType.size : CType → Nat
  | CType.int => 4
  | CType.float => 4
  | CType.array elem count => count * elem.size
  | CType.struct members => roundUp (members.endFrom 0) members.align
/-- The end of the last member when the first is placed from `start` on. -/
def CMembers.endFrom : CMembers → Nat → Nat
  | CMembers.nil, start => start
  | CMembers.cons _ type rest, start => rest.endFrom (roundUp start type.align + type.size)
end

/-- The offset of the member of that name when the first member is placed
from `start` on, `offsetof`. -/
def CMembers.offsetFrom : CMembers → Nat → String → Option Nat
  | CMembers.nil, _, _ => none
  | CMembers.cons n type rest, start, name =>
    if n = name then some (roundUp start type.align)
    else rest.offsetFrom (roundUp start type.align + type.size) name

/-- The members of `VROLightData`. -/
def lightDataMembers : CMembers :=
  CMembers.cons "type" CType.int <|
  CMembers.cons "attenuation_start_distance" CType.float <|
  CMembers.cons "attenuation_end_distance" CType.float <|
  CMembers.cons "attenuation_falloff_exp" CType.float <|
  CMembers.cons "position" (CType.array CType.float 4) <|
  CMembers.cons "direction" (CType.array CType.float 4) <|
  CMembers.cons "color" (CType.array CType.float 3) <|
  CMembers.cons "spot_inner_angle" CType.float <|
  CMembers.cons "spot_outer_angle" CType.float <|
  CMembers.cons "padding3" CType.float <|
  CMembers.cons "padding4" CType.float <|
  CMembers.cons "padding5" CType.float CMembers.nil

/-- The members of `VROLightingData`. -/
def lightingDataMembers : CMembers :=
  CMembers.cons "num_lights" CType.int <|
  CMembers.cons "padding0" CType.float <|
  CMembers.cons "padding1" CType.float <|
  CMembers.cons "padding2" CType.float <|
  CMembers.cons "ambient_light_color" (CType.array CType.float 4) <|
  CMembers.cons "lights" (CType.array (CType.struct lightDataMembers) lightsCapacity)
    CMembers.nil

/-- The number of bytes `bindLights` hands to `glBufferSubData`, from offset
0: `sizeof(VROLightingData)`. -/
def lightingBufferSize : Nat := (CType.struct lightingDataMembers).size

/-- The offset of `lights[i]` in `VROLightingData`. -/
def lightRecordOffset (i : Nat) : Option Nat :=
  (lightingDataMembers.offsetFrom 0 "lights").map
    (fun base => base + i * (CType.struct lightDataMembers).size)

/-! ## Samplers and channels -/

/-- The channel of the material that a sampler name stands for: the diffuse
channel for `sampler`, `texture` and `diffuse_texture`, the specular channel
for `specular_texture`, the reflective channel for `reflect_texture`. -/
def samplerChannel (material : VROMaterial) (sampler : String) : Option VROMaterialVisual :=
  if sampler = "sampler" ∨ sampler = "texture" ∨ sampler = "diffuse_texture" then
    some material.diffuse
  else if sampler = "specular_texture" then some material.specular
  else if sampler = "reflect_texture" then some material.reflective
  else none

/-! ## The sfnt header of `getFontData`

The part of `VROTypefaceiOS::getFontData` that computes the entries of the
font header from the number of tables. -/

/-- The four `uint16_t` entries of `FontHeader` that `getFontData` computes,
before their bytes are swapped to big-endian. -/
structure FontHeader where
  fNumTables : Nat
  fSearchRange : Nat
  fEntrySelector : Nat
  fRangeShift : Nat
  deriving DecidableEq, Repr

/-- The loop `while (searchRange < tableCount >> 1) { entrySelector++;
searchRange <<= 1; }` on the two `uint16_t` locals, with fuel for the number
of turns; `none` when the fuel runs out. -/
def headerLoop : Nat → Nat → Nat → Nat → Option (Nat × Nat)
  | 0, _, _, _ => none
  | fuel + 1, tableCount, searchRange, entrySelector =>
    if searchRange < tableCount >>> 1 then
      headerLoop fuel tableCount ((searchRange <<< 1) % 2 ^ 16) ((entrySelector + 1) % 2 ^ 16)
    else some (searchRange, entrySelector)

/-- The header entries `getFontData` computes for a font with `tableCount`
tables: the loop from `searchRange = 1`, `entrySelector = 0`, then
`searchRange <<= 4` and `rangeShift = (tableCount << 4) - searchRange`, each
truncated to `uint16_t`. After 17 turns the loop has gone through every
power of two of 16 bits and through 0, where it stays: `none` stands for a
loop that does not end. -/
def fontHeader (tableCount : Nat) : Option FontHeader :=
  match headerLoop 17 tableCount 1 0 with
  | none => none
  | some (searchRange, entrySelector) =>
    let searchRange := (searchRange <<< 4) % 2 ^ 16
    let rangeShift := (((tableCount <<< 4 : Nat) : Int) - (searchRange : Int)) % 2 ^ 16
    some ⟨tableCount % 2 ^ 16, searchRange, entrySelector, rangeShift.toNat⟩

/-- The header entries by the definition of the sfnt offset table, in the
words of the claim: `searchRange` is 16 times the largest power of two that
is at most the number of tables, `entrySelector` the logarithm of that power
of two, `rangeShift` is 16 times the number of tables minus `searchRange`. -/
def sfntHeader (numTables : Nat) : FontHeader :=
  ⟨numTables, 16 * 2 ^ floorLog2 numTables, floorLog2 numTables,
    16 * numTables - 16 * 2 ^ floorLog2 numTables⟩

/-! ## The pool as reached by acquisitions -/

/-- The pairs of a vertex name and a fragment name of a run of
acquisitions. -/
def callNames (calls : List (String × String × List String)) : List (String × String) :=
  calls.map (fun call => (call.1, call.2.1))

/-- The invariant of a pool reached by acquisitions with the pairs `names`:
every bound key points to a program of the heap, constructed from one of the
pairs, whose two names give that key. -/
def World.Tracked (w : World) (names : List (String × String)) : Prop :=
  ∀ name ref, w.sharedPrograms.lookup name = some ref →
    ∃ program, w.programs[ref]? = some program ∧
      pooledName program.vertexShader program.fragmentShader = name ∧
      (program.vertexShader, program.fragmentShader) ∈ names

/-! ## The resolution and the constructor -/

/-- The constructor hands the names, samplers and textures of `resolve` to
the pool. -/
theorem construct_eq_resolve (material : VROMaterial) (w : World) :
    construct material w
      = loadTail material (resolve material) (VROMaterialSubstrateOpenGL.initial material) w := by
  unfold construct resolve loadTail
  cases hm : material.lightingModel <;>
    by_cases hs : material.specular.contentsType = VROContentsType.Texture2D <;>
    simp [hs, loadConstantLighting, loadLambertLighting, loadPhongLighting,
      loadBlinnLighting]

theorem loadPooled_textures (c : ShaderChoice) (self : VROMaterialSubstrateOpenGL) (w : World) :
    (loadPooled c self w).1.textures = self.textures ++ c.textures := by
  unfold loadPooled
  simp only
  split
  · rfl
  · split <;> rfl

theorem loadPooledShiny_textures (c : ShaderChoice) (self : VROMaterialSubstrateOpenGL)
    (w : World) : (loadPooledShiny c self w).1.textures = self.textures ++ c.textures := by
  unfold loadPooledShiny
  simp only
  split
  · rfl
  · split <;> rfl

/-- The bound texture list of a constructed substrate is the texture list of
the resolution. -/
theorem construct_textures (material : VROMaterial) (w : World) :
    (construct material w).1.textures = (resolve material).textures := by
  rw [construct_eq_resolve]
  unfold loadTail
  split
  · rw [loadPooledShiny_textures]; rfl
  · rw [loadPooled_textures]; rfl

/-- Claim C1. Fallback rule: a Phong or Blinn material whose specular channel
is not a 2D texture resolves to the same vertex shader name, fragment shader
name, ordered sampler names and ordered bound textures as any Lambert
material with the same diffuse and reflective channels; on every state of
the pool the two constructions also pick the same program, bind the same
textures and leave the same state behind. -/
theorem C1_fallback_to_lambert (m l : VROMaterial)
    (hm : m.lightingModel = VROLightingModel.Phong ∨ m.lightingModel = VROLightingModel.Blinn)
    (hs : m.specular.contentsType ≠ VROContentsType.Texture2D)
    (hl : l.lightingModel = VROLightingModel.Lambert)
    (hd : l.diffuse = m.diffuse) (hr : l.reflective = m.reflective) :
    (resolve m).vertexShader = (resolve l).vertexShader ∧
    (resolve m).fragmentShader = (resolve l).fragmentShader ∧
    (resolve m).samplers = (resolve l).samplers ∧
    (resolve m).textures = (resolve l).textures ∧
    ∀ w : World,
      (construct m w).1.program = (construct l w).1.program ∧
      (construct m w).1.textures = (construct l w).1.textures ∧
      (construct m w).2 = (construct l w).2 := by
  have hres : resolve m = resolve l := by
    unfold resolve
    rcases hm with hm | hm <;> simp [hm, hl, hs, lambertChoice, hd, hr]
  refine ⟨by rw [hres], by rw [hres], by rw [hres], by rw [hres], fun w => ?_⟩
  have hcm : construct m w = loadPooled (resolve m) (VROMaterialSubstrateOpenGL.initial m) w := by
    rw [construct_eq_resolve]; unfold loadTail; simp [hs]
  have hcl : construct l w = loadPooled (resolve l) (VROMaterialSubstrateOpenGL.initial l) w := by
    rw [construct_eq_resolve]; unfold loadTail; simp [hl]
  rw [hcm, hcl, hres]
  unfold loadPooled
  simp only [VROMaterialSubstrateOpenGL.initial]
  split
  · exact ⟨rfl, rfl, rfl⟩
  · split
    · exact ⟨rfl, rfl, rfl⟩
    · exact ⟨rfl, rfl, rfl⟩

/-- Witness of C1: a Phong material with a fixed specular colour and the
Lambert material with the same textured diffuse and cube reflective
channels. -/
theorem C1_fallback_to_lambert_witness :
    (resolve (sampleMaterial VROLightingModel.Phong (textureVisual 7) fixedVisual
        (cubeVisual 9))).fragmentShader
      = (resolve (sampleMaterial VROLightingModel.Lambert (textureVisual 7) (textureVisual 3)
        (cubeVisual 9))).fragmentShader :=
  (C1_fallback_to_lambert
    (sampleMaterial VROLightingModel.Phong (textureVisual 7) fixedVisual (cubeVisual 9))
    (sampleMaterial VROLightingModel.Lambert (textureVisual 7) (textureVisual 3) (cubeVisual 9))
    (Or.inl rfl) (by decide) rfl rfl rfl).2.1

/-- Counterexample to C2 as stated: the Constant material with a fixed
diffuse colour resolves to the names `constant_vsh` and `constant_c_fsh`,
not to `constant` and `constant_c`. -/
theorem C2_constant_names_counterexample :
    (resolve (sampleMaterial VROLightingModel.Constant fixedVisual fixedVisual
        fixedVisual)).vertexShader ≠ "constant" ∧
    (resolve (sampleMaterial VROLightingModel.Constant fixedVisual fixedVisual
        fixedVisual)).fragmentShader ≠ "constant_c" ∧
    (resolve (sampleMaterial VROLightingModel.Constant fixedVisual fixedVisual
        fixedVisual)).vertexShader = "constant_vsh" ∧
    (resolve (sampleMaterial VROLightingModel.Constant fixedVisual fixedVisual
        fixedVisual)).fragmentShader = "constant_c_fsh" := by
  decide

/-- Claim C2, amended. A Constant material resolves to the vertex shader
name `constant_vsh` and to the fragment name `constant_c_fsh` when the
diffuse channel is Fixed, `constant_t_fsh` when it is Texture2D and
`constant_q_fsh` for any other content type; the sampler list is empty when
diffuse is Fixed and otherwise the single sampler `sampler`, bound to the
diffuse texture. -/
theorem C2_constant_resolution (m : VROMaterial)
    (hm : m.lightingModel = VROLightingModel.Constant) :
    (resolve m).vertexShader = "constant_vsh" ∧
    (resolve m).fragmentShader =
      (if m.diffuse.contentsType = VROContentsType.Fixed then "constant_c_fsh"
       else if m.diffuse.contentsType = VROContentsType.Texture2D then "constant_t_fsh"
       else "constant_q_fsh") ∧
    (resolve m).samplers =
      (if m.diffuse.contentsType = VROContentsType.Fixed then [] else ["sampler"]) ∧
    (resolve m).textures =
      (if m.diffuse.contentsType = VROContentsType.Fixed then []
       else [m.diffuse.contentsTexture]) := by
  unfold resolve constantChoice
  rw [hm]
  by_cases h1 : m.diffuse.contentsType = VROContentsType.Fixed
  · simp [h1]
  · by_cases h2 : m.diffuse.contentsType = VROContentsType.Texture2D <;> simp [h1, h2]

/-- Witness of C2: the Constant material with a cube texture as diffuse
channel. -/
theorem C2_constant_resolution_witness :
    (resolve (sampleMaterial VROLightingModel.Constant (cubeVisual 5) fixedVisual
        fixedVisual)).fragmentShader = "constant_q_fsh" ∧
    (resolve (sampleMaterial VROLightingModel.Constant (cubeVisual 5) fixedVisual
        fixedVisual)).samplers = ["sampler"] ∧
    (resolve (sampleMaterial VROLightingModel.Constant (cubeVisual 5) fixedVisual
        fixedVisual)).textures = [⟨5⟩] :=
  (C2_constant_resolution
    (sampleMaterial VROLightingModel.Constant (cubeVisual 5) fixedVisual fixedVisual) rfl).2

/-- Counterexample to C3 as stated: the Lambert material with fixed diffuse
and no cube reflection resolves to `lambert_vsh` and `lambert_c_fsh`, not to
`lambert` and `lambert_c`. -/
theorem C3_lambert_names_counterexample :
    (resolve (sampleMaterial VROLightingModel.Lambert fixedVisual fixedVisual
        fixedVisual)).vertexShader ≠ "lambert" ∧
    (resolve (sampleMaterial VROLightingModel.Lambert fixedVisual fixedVisual
        fixedVisual)).fragmentShader ≠ "lambert" ++ "_c" ++ "" ∧
    (resolve (sampleMaterial VROLightingModel.Lambert fixedVisual fixedVisual
        fixedVisual)).vertexShader = "lambert_vsh" ∧
    (resolve (sampleMaterial VROLightingModel.Lambert fixedVisual fixedVisual
        fixedVisual)).fragmentShader = "lambert_c_fsh" := by
  decide

/-- Claim C3, amended. A Lambert material resolves to the vertex shader name
`lambert_vsh` and to the fragment name `lambert`, then `_c` if diffuse is
Fixed and `_t` otherwise, then `_reflect` if the reflective channel is a
cube texture, then `_fsh`; the samplers are, in this order, `texture` bound
to the diffuse texture iff diffuse is not Fixed, followed by
`reflect_texture` bound to the reflective texture iff reflective is a cube
texture. -/
theorem C3_lambert_resolution (m : VROMaterial)
    (hm : m.lightingModel = VROLightingModel.Lambert) :
    (resolve m).vertexShader = "lambert_vsh" ∧
    (resolve m).fragmentShader =
      "lambert" ++ (if m.diffuse.contentsType = VROContentsType.Fixed then "_c" else "_t")
        ++ (if m.reflective.contentsType = VROContentsType.TextureCube then "_reflect" else "")
        ++ "_fsh" ∧
    (resolve m).samplers =
      (if m.diffuse.contentsType = VROContentsType.Fixed then [] else ["texture"])
        ++ (if m.reflective.contentsType = VROContentsType.TextureCube
            then ["reflect_texture"] else []) ∧
    (resolve m).textures =
      (if m.diffuse.contentsType = VROContentsType.Fixed then []
       else [m.diffuse.contentsTexture])
        ++ (if m.reflective.contentsType = VROContentsType.TextureCube
            then [m.reflective.contentsTexture] else []) := by
  unfold resolve lambertChoice
  rw [hm]
  by_cases h1 : m.diffuse.contentsType = VROContentsType.Fixed <;>
    by_cases h2 : m.reflective.contentsType = VROContentsType.TextureCube <;>
    simp [h1, h2]

/-- Witness of C3: the Lambert material with a textured diffuse channel and
a cube reflection. -/
theorem C3_lambert_resolution_witness :
    (resolve (sampleMaterial VROLightingModel.Lambert (textureVisual 7) fixedVisual
        (cubeVisual 9))).fragmentShader = "lambert_t_reflect_fsh" ∧
    (resolve (sampleMaterial VROLightingModel.Lambert (textureVisual 7) fixedVisual
        (cubeVisual 9))).samplers = ["texture", "reflect_texture"] ∧
    (resolve (sampleMaterial VROLightingModel.Lambert (textureVisual 7) fixedVisual
        (cubeVisual 9))).textures = [⟨7⟩, ⟨9⟩] :=
  (C3_lambert_resolution
    (sampleMaterial VROLightingModel.Lambert (textureVisual 7) fixedVisual (cubeVisual 9))
    rfl).2

/-- Counterexample to C4 as stated: the Phong material with textured diffuse
and specular channels resolves to the vertex name `phong_vsh`, not `phong`,
and declares `diffuse_texture` before `specular_texture`, not after it. -/
theorem C4_specular_order_counterexample :
    (resolve (sampleMaterial VROLightingModel.Phong (textureVisual 7) (textureVisual 3)
        fixedVisual)).vertexShader ≠ "phong" ∧
    (resolve (sampleMaterial VROLightingModel.Phong (textureVisual 7) (textureVisual 3)
        fixedVisual)).samplers ≠ ["specular_texture", "diffuse_texture"] ∧
    (resolve (sampleMaterial VROLightingModel.Phong (textureVisual 7) (textureVisual 3)
        fixedVisual)).samplers = ["diffuse_texture", "specular_texture"] ∧
    (resolve (sampleMaterial VROLightingModel.Phong (textureVisual 7) (textureVisual 3)
        fixedVisual)).textures = [⟨7⟩, ⟨3⟩] := by
  decide

/-- Claim C4, amended. A Phong or Blinn material with a 2D specular texture
resolves to the vertex name stem `_vsh` and the fragment name stem, then
`_c` if diffuse is Fixed and `_t` otherwise, then `_reflect` if reflective is
a cube texture, then `_fsh`, the stem being `phong` or `blinn`; the samplers
are, in this order, `diffuse_texture` bound to the diffuse texture iff
diffuse is not Fixed, then `specular_texture` bound to the specular texture,
then `reflect_texture` bound to the reflective texture iff reflective is a
cube texture. -/
theorem C4_phong_blinn_resolution (m : VROMaterial)
    (hm : m.lightingModel = VROLightingModel.Phong ∨ m.lightingModel = VROLightingModel.Blinn)
    (hs : m.specular.contentsType = VROContentsType.Texture2D) :
    (resolve m).vertexShader = shaderStem m.lightingModel ++ "_vsh" ∧
    (resolve m).fragmentShader =
      shaderStem m.lightingModel
        ++ (if m.diffuse.contentsType = VROContentsType.Fixed then "_c" else "_t")
        ++ (if m.reflective.contentsType = VROContentsType.TextureCube then "_reflect" else "")
        ++ "_fsh" ∧
    (resolve m).samplers =
      (if m.diffuse.contentsType = VROContentsType.Fixed then [] else ["diffuse_texture"])
        ++ ["specular_texture"]
        ++ (if m.reflective.contentsType = VROContentsType.TextureCube
            then ["reflect_texture"] else []) ∧
    (resolve m).textures =
      (if m.diffuse.contentsType = VROContentsType.Fixed then []
       else [m.diffuse.contentsTexture])
        ++ [m.specular.contentsTexture]
        ++ (if m.reflective.contentsType = VROContentsType.TextureCube
            then [m.reflective.contentsTexture] else []) := by
  unfold resolve phongChoice blinnChoice
  rcases hm with hm | hm <;> rw [hm] <;>
    by_cases h1 : m.diffuse.contentsType = VROContentsType.Fixed <;>
    by_cases h2 : m.reflective.contentsType = VROContentsType.TextureCube <;>
    simp [h1, h2, hs, shaderStem]

/-- Witness of C4: the Blinn material with all three channels textured. -/
theorem C4_phong_blinn_resolution_witness :
    (resolve (sampleMaterial VROLightingModel.Blinn (textureVisual 7) (textureVisual 3)
        (cubeVisual 9))).fragmentShader = "blinn_t_reflect_fsh" ∧
    (resolve (sampleMaterial VROLightingModel.Blinn (textureVisual 7) (textureVisual 3)
        (cubeVisual 9))).samplers = ["diffuse_texture", "specular_texture", "reflect_texture"] ∧
    (resolve (sampleMaterial VROLightingModel.Blinn (textureVisual 7) (textureVisual 3)
        (cubeVisual 9))).textures = [⟨7⟩, ⟨3⟩, ⟨9⟩] :=
  (C4_phong_blinn_resolution
    (sampleMaterial VROLightingModel.Blinn (textureVisual 7) (textureVisual 3) (cubeVisual 9))
    (Or.inr rfl) rfl).2

/-- Claim C5. Resolution depends only on the lighting model and the content
types of the three channels: two materials that agree on these resolve to
the same vertex shader name, fragment shader name and ordered sampler names,
whatever their textures, colours and scalar properties; the resolution reads
nothing of the pool, and on every state of the pool it is what the
constructor hands to the pool. -/
theorem C5_resolution_depends_on_types (m₁ m₂ : VROMaterial)
    (hm : m₁.lightingModel = m₂.lightingModel)
    (hd : m₁.diffuse.contentsType = m₂.diffuse.contentsType)
    (hs : m₁.specular.contentsType = m₂.specular.contentsType)
    (hr : m₁.reflective.contentsType = m₂.reflective.contentsType) :
    (resolve m₁).vertexShader = (resolve m₂).vertexShader ∧
    (resolve m₁).fragmentShader = (resolve m₂).fragmentShader ∧
    (resolve m₁).samplers = (resolve m₂).samplers ∧
    (∀ w₁ w₂ : World,
      construct m₁ w₁
        = loadTail m₁ (resolve m₁) (VROMaterialSubstrateOpenGL.initial m₁) w₁ ∧
      construct m₂ w₂
        = loadTail m₂ (resolve m₂) (VROMaterialSubstrateOpenGL.initial m₂) w₂) := by
  have names : (resolve m₁).vertexShader = (resolve m₂).vertexShader ∧
      (resolve m₁).fragmentShader = (resolve m₂).fragmentShader ∧
      (resolve m₁).samplers = (resolve m₂).samplers := by
    obtain ⟨model₁, ⟨dt₁, _, _, _⟩, ⟨st₁, _, _, _⟩, ⟨rt₁, _, _, _⟩, _, _, _, _⟩ := m₁
    obtain ⟨model₂, ⟨dt₂, _, _, _⟩, ⟨st₂, _, _, _⟩, ⟨rt₂, _, _, _⟩, _, _, _, _⟩ := m₂
    simp only at hm hd hs hr
    subst hm hd hs hr
    cases model₁ <;> cases dt₁ <;> cases st₁ <;> cases rt₁ <;>
      simp [resolve, constantChoice, lambertChoice, phongChoice, blinnChoice]
  exact ⟨names.1, names.2.1, names.2.2,
    fun w₁ w₂ => ⟨construct_eq_resolve m₁ w₁, construct_eq_resolve m₂ w₂⟩⟩

/-- Witness of C5: two Phong materials with the same content types and
different textures, colours, transparency and shininess. -/
theorem C5_resolution_depends_on_types_witness :
    (resolve ⟨VROLightingModel.Phong, ⟨VROContentsType.Texture2D, ⟨7⟩, ⟨1, 0, 0, 1⟩, 1⟩,
        ⟨VROContentsType.Texture2D, ⟨3⟩, ⟨0, 0, 0, 1⟩, 1⟩,
        ⟨VROContentsType.TextureCube, ⟨9⟩, ⟨0, 0, 0, 1⟩, 1⟩, 1, 2, true, true⟩).samplers
      = (resolve ⟨VROLightingModel.Phong, ⟨VROContentsType.Texture2D, ⟨70⟩, ⟨0, 1, 0, 0⟩, 5⟩,
        ⟨VROContentsType.Texture2D, ⟨30⟩, ⟨1, 1, 1, 1⟩, 4⟩,
        ⟨VROContentsType.TextureCube, ⟨90⟩, ⟨1, 0, 1, 0⟩, 3⟩, float_0_5, 8, false,
        true⟩).samplers :=
  (C5_resolution_depends_on_types _ _ rfl rfl rfl rfl).2.2.1

/-! ## The pool -/

theorem foldl_addSampler (samplers : List String) (program : VROShaderProgram) :
    samplers.foldl VROShaderProgram.addSampler program
      = { program with samplers := program.samplers ++ samplers } := by
  induction samplers generalizing program with
  | nil => simp
  | cons a rest ih => simp [List.foldl_cons, ih, VROShaderProgram.addSampler]

/-- A miss of the pool: the new program is appended to the heap and stored
under the pool name. -/
theorem getPooledShader_miss (v f : String) (samplers : List String) (w : World)
    (h : w.sharedPrograms.lookup (pooledName v f) = none) :
    getPooledShader v f samplers w
      = (w.programs.length,
          ⟨w.programs ++ [freshProgram v f samplers w.programs.length],
            (pooledName v f, w.programs.length) :: w.sharedPrograms⟩) := by
  unfold getPooledShader
  simp only [h, foldl_addSampler, freshProgram, List.nil_append]

/-- A hit of the pool: the stored reference, and the state as it was. -/
theorem getPooledShader_hit (v f : String) (samplers : List String) (w : World) (ref : Nat)
    (h : w.sharedPrograms.lookup (pooledName v f) = some ref) :
    getPooledShader v f samplers w = (ref, w) := by
  unfold getPooledShader
  simp only [h]

/-- After an acquisition the pool name is bound to the returned reference. -/
theorem getPooledShader_lookup (v f : String) (samplers : List String) (w : World) :
    (getPooledShader v f samplers w).2.sharedPrograms.lookup (pooledName v f)
      = some (getPooledShader v f samplers w).1 := by
  cases h : w.sharedPrograms.lookup (pooledName v f) with
  | none => rw [getPooledShader_miss v f samplers w h]; simp [List.lookup_cons]
  | some ref => rw [getPooledShader_hit v f samplers w ref h]; exact h

/-- An acquisition never rebinds a name that is bound. -/
theorem getPooledShader_keeps (name : String) (ref : Nat) (v f : String)
    (samplers : List String) (w : World) (h : w.sharedPrograms.lookup name = some ref) :
    (getPooledShader v f samplers w).2.sharedPrograms.lookup name = some ref := by
  cases h' : w.sharedPrograms.lookup (pooledName v f) with
  | none =>
    rw [getPooledShader_miss v f samplers w h']
    have hne : name ≠ pooledName v f := by
      intro heq; rw [heq, h'] at h; exact Option.noConfusion h
    have hb : (name == pooledName v f) = false := by simp [hne]
    simp only [List.lookup_cons, hb, h]
  | some r => rw [getPooledShader_hit v f samplers w r h']; exact h

theorem acquireAll_keeps (name : String) (ref : Nat) (calls : List (String × String × List String))
    (w : World) (h : w.sharedPrograms.lookup name = some ref) :
    (acquireAll calls w).sharedPrograms.lookup name = some ref := by
  induction calls generalizing w with
  | nil => exact h
  | cons call rest ih =>
    unfold acquireAll
    rw [List.foldl_cons]
    exact ih _ (getPooledShader_keeps name ref call.1 call.2.1 call.2.2 w h)

/-- Claim C6. Once `getPooledShader v f s₁` has been called, on any state of
the pool, a later `getPooledShader v f s₂`, for any sampler list and after any
intervening acquisitions, returns the reference the first call returned and
leaves the whole state as it was: the heap has no new program, no program of
the heap has changed (so no sampler was added), and the map is unchanged. -/
theorem C6_second_acquire_is_hit (w : World) (v f : String) (s₁ s₂ : List String)
    (calls : List (String × String × List String)) :
    getPooledShader v f s₂ (acquireAll calls (getPooledShader v f s₁ w).2)
        = ((getPooledShader v f s₁ w).1, acquireAll calls (getPooledShader v f s₁ w).2) ∧
    (getPooledShader v f s₂ (acquireAll calls (getPooledShader v f s₁ w).2)).2.programs
        = (acquireAll calls (getPooledShader v f s₁ w).2).programs ∧
    (getPooledShader v f s₂ (acquireAll calls (getPooledShader v f s₁ w).2)).2.sharedPrograms
        = (acquireAll calls (getPooledShader v f s₁ w).2).sharedPrograms := by
  have h := getPooledShader_hit v f s₂ _ _
    (acquireAll_keeps _ _ calls _ (getPooledShader_lookup v f s₁ w))
  rw [h]
  exact ⟨rfl, rfl, rfl⟩

/-- Two acquisitions under different pool names that are both unbound make
two programs, each from the names and samplers of its own call. -/
theorem getPooledShader_two_misses (v₁ f₁ v₂ f₂ : String) (s₁ s₂ : List String) (w : World)
    (hkey : pooledName v₁ f₁ ≠ pooledName v₂ f₂)
    (h₁ : w.sharedPrograms.lookup (pooledName v₁ f₁) = none)
    (h₂ : w.sharedPrograms.lookup (pooledName v₂ f₂) = none) :
    (getPooledShader v₁ f₁ s₁ w).1 = w.programs.length ∧
    (getPooledShader v₂ f₂ s₂ (getPooledShader v₁ f₁ s₁ w).2).1 = w.programs.length + 1 ∧
    (getPooledShader v₂ f₂ s₂ (getPooledShader v₁ f₁ s₁ w).2).2.programs
      = w.programs ++ [freshProgram v₁ f₁ s₁ w.programs.length,
          freshProgram v₂ f₂ s₂ (w.programs.length + 1)] := by
  rw [getPooledShader_miss v₁ f₁ s₁ w h₁]
  have h₂' : (⟨w.programs ++ [freshProgram v₁ f₁ s₁ w.programs.length],
      (pooledName v₁ f₁, w.programs.length) :: w.sharedPrograms⟩ : World).sharedPrograms.lookup
        (pooledName v₂ f₂) = none := by
    have hb : (pooledName v₂ f₂ == pooledName v₁ f₁) = false := by simp [hkey.symm]
    simp only [List.lookup_cons, hb, h₂]
  rw [getPooledShader_miss v₂ f₂ s₂ _ h₂']
  simp

/-- Pool names of two different pairs differ when the two vertex names, or
the two fragment names, have the same length. -/
theorem pooledName_injective_of_length (v₁ f₁ v₂ f₂ : String)
    (hne : (v₁, f₁) ≠ (v₂, f₂))
    (hlen : v₁.length = v₂.length ∨ f₁.length = f₂.length) :
    pooledName v₁ f₁ ≠ pooledName v₂ f₂ := by
  intro h
  apply hne
  have hd : v₁.data ++ ('_' :: f₁.data) = v₂.data ++ ('_' :: f₂.data) := by
    have := congrArg String.data h
    simpa [pooledName, String.data_append] using this
  have hv : v₁.data = v₂.data ∧ ('_' :: f₁.data) = ('_' :: f₂.data) := by
    rcases hlen with hl | hl
    · exact List.append_inj hd hl
    · exact List.append_inj' hd (congrArg Nat.succ hl)
  have h1 : v₁ = v₂ := String.ext hv.1
  have h2 : f₁ = f₂ := String.ext (List.cons_injective hv.2)
  rw [h1, h2]

theorem World.tracked_empty : World.empty.Tracked [] := by
  intro name ref h
  cases h

theorem World.Tracked.mono {w : World} {names names' : List (String × String)}
    (hw : w.Tracked names) (h : ∀ x ∈ names, x ∈ names') : w.Tracked names' := by
  intro name ref hl
  obtain ⟨p, hp, hk, hm⟩ := hw name ref hl
  exact ⟨p, hp, hk, h _ hm⟩

/-- An acquisition leaves the programs of the heap where and as they are. -/
theorem getPooledShader_programs (v f : String) (samplers : List String) (w : World) :
    ∃ added, (getPooledShader v f samplers w).2.programs = w.programs ++ added := by
  cases h : w.sharedPrograms.lookup (pooledName v f) with
  | none => rw [getPooledShader_miss v f samplers w h]; exact ⟨_, rfl⟩
  | some ref => rw [getPooledShader_hit v f samplers w ref h]; exact ⟨[], by simp⟩

theorem acquireAll_programs (calls : List (String × String × List String)) (w : World) :
    ∃ added, (acquireAll calls w).programs = w.programs ++ added := by
  induction calls generalizing w with
  | nil => exact ⟨[], by simp [acquireAll]⟩
  | cons call rest ih =>
    obtain ⟨a₁, e₁⟩ := getPooledShader_programs call.1 call.2.1 call.2.2 w
    obtain ⟨a₂, e₂⟩ := ih (getPooledShader call.1 call.2.1 call.2.2 w).2
    refine ⟨a₁ ++ a₂, ?_⟩
    have hstep : acquireAll (call :: rest) w
        = acquireAll rest (getPooledShader call.1 call.2.1 call.2.2 w).2 := by
      simp [acquireAll]
    rw [hstep, e₂, e₁, List.append_assoc]

theorem getElem?_of_append {α : Type} (l added : List α) (i : Nat) (a : α)
    (h : l[i]? = some a) : (l ++ added)[i]? = some a := by
  have hlt : i < l.length := by
    by_contra hge
    rw [List.getElem?_eq_none (by omega)] at h
    exact Option.noConfusion h
  rw [List.getElem?_append_left hlt]
  exact h

theorem getPooledShader_tracked (v f : String) (samplers : List String) (w : World)
    (names : List (String × String)) (hw : w.Tracked names) :
    (getPooledShader v f samplers w).2.Tracked ((v, f) :: names) := by
  cases h : w.sharedPrograms.lookup (pooledName v f) with
  | none =>
    rw [getPooledShader_miss v f samplers w h]
    intro name ref hl
    by_cases hn : name = pooledName v f
    · subst hn
      simp only [List.lookup_cons, beq_self_eq_true] at hl
      have hr : w.programs.length = ref := Option.some.inj hl
      subst hr
      exact ⟨freshProgram v f samplers w.programs.length, by simp, rfl,
        List.mem_cons_self _ _⟩
    · have hb : (name == pooledName v f) = false := by simp [hn]
      simp only [List.lookup_cons, hb] at hl
      obtain ⟨p, hp, hk, hm⟩ := hw name ref hl
      exact ⟨p, getElem?_of_append _ _ _ _ hp, hk, List.mem_cons_of_mem _ hm⟩
  | some ref =>
    rw [getPooledShader_hit v f samplers w ref h]
    exact hw.mono (fun x hx => List.mem_cons_of_mem _ hx)

theorem acquireAll_tracked (calls : List (String × String × List String)) (w : World)
    (names : List (String × String)) (hw : w.Tracked names) :
    (acquireAll calls w).Tracked (callNames calls ++ names) := by
  induction calls generalizing w names with
  | nil => exact hw
  | cons call rest ih =>
    have hstep : acquireAll (call :: rest) w
        = acquireAll rest (getPooledShader call.1 call.2.1 call.2.2 w).2 := by
      simp [acquireAll]
    rw [hstep]
    refine (ih _ _ (getPooledShader_tracked call.1 call.2.1 call.2.2 w names hw)).mono ?_
    intro x hx
    show x ∈ ((call.1, call.2.1) :: callNames rest) ++ names
    rcases List.mem_append.mp hx with h | h
    · exact List.mem_append_left _ (List.mem_cons_of_mem _ h)
    · rcases List.mem_cons.mp h with h | h
      · rw [h]; exact List.mem_append_left _ (List.mem_cons_self _ _)
      · exact List.mem_append_right _ h

/-- In a pool reached by acquisitions, two keys bound to the same reference
are the same key. -/
theorem World.Tracked.lookup_separates {w : World} {names : List (String × String)}
    (hw : w.Tracked names) (name₁ name₂ : String) (ref : Nat)
    (h₁ : w.sharedPrograms.lookup name₁ = some ref)
    (h₂ : w.sharedPrograms.lookup name₂ = some ref) : name₁ = name₂ := by
  obtain ⟨p₁, hp₁, k₁, _⟩ := hw _ _ h₁
  obtain ⟨p₂, hp₂, k₂, _⟩ := hw _ _ h₂
  rw [hp₁] at hp₂
  have e := Option.some.inj hp₂
  rw [← k₁, ← k₂, e]

/-- Counterexample to C7 as stated: the different pairs `(a_b, c)` and
`(a, b_c)` have the same pool name `a_b_c`; acquired one after the other
from the empty pool they return one and the same program, made from the
first pair alone. -/
theorem C7_pool_name_collision_counterexample :
    (("a_b", "c") : String × String) ≠ ("a", "b_c") ∧
    pooledName "a_b" "c" = pooledName "a" "b_c" ∧
    (getPooledShader "a" "b_c" [] (getPooledShader "a_b" "c" [] World.empty).2).1
      = (getPooledShader "a_b" "c" [] World.empty).1 ∧
    (getPooledShader "a" "b_c" [] (getPooledShader "a_b" "c" [] World.empty).2).2.programs
      = [freshProgram "a_b" "c" [] 0] := by
  decide

/-- Claim C7, amended. The pool maps each distinct cache key
`vertex + "_" + fragment` to its own program. For every two pairs of names
whose keys differ, in every pool reached from the empty one by acquisitions
and with any acquisitions between the two, acquiring both returns two
distinct program instances; each was constructed from a pair of names that
has the key of its call, from the pair of the call itself when no earlier
acquisition had another pair with the same key, and with the samplers of the
call when the key was unbound. In the pool so reached two different keys are
never bound to one program. The keys of two different pairs differ whenever
the two vertex names, or the two fragment names, have the same length. -/
theorem C7_distinct_keys_distinct_programs (before between : List (String × String × List String))
    (v₁ f₁ v₂ f₂ : String) (s₁ s₂ : List String)
    (hkey : pooledName v₁ f₁ ≠ pooledName v₂ f₂) :
    let w₀ := acquireAll before World.empty
    let r₁ := getPooledShader v₁ f₁ s₁ w₀
    let w₁ := acquireAll between r₁.2
    let r₂ := getPooledShader v₂ f₂ s₂ w₁
    r₁.1 ≠ r₂.1 ∧
    (∃ p₁ p₂, r₂.2.programs[r₁.1]? = some p₁ ∧ r₂.2.programs[r₂.1]? = some p₂ ∧
      pooledName p₁.vertexShader p₁.fragmentShader = pooledName v₁ f₁ ∧
      pooledName p₂.vertexShader p₂.fragmentShader = pooledName v₂ f₂ ∧
      ((∀ x ∈ callNames before, pooledName x.1 x.2 = pooledName v₁ f₁ → x = (v₁, f₁)) →
        p₁.vertexShader = v₁ ∧ p₁.fragmentShader = f₁) ∧
      ((∀ x ∈ callNames before ++ callNames between,
          pooledName x.1 x.2 = pooledName v₂ f₂ → x = (v₂, f₂)) →
        p₂.vertexShader = v₂ ∧ p₂.fragmentShader = f₂) ∧
      (w₀.sharedPrograms.lookup (pooledName v₁ f₁) = none →
        p₁ = freshProgram v₁ f₁ s₁ w₀.programs.length) ∧
      (w₁.sharedPrograms.lookup (pooledName v₂ f₂) = none →
        p₂ = freshProgram v₂ f₂ s₂ w₁.programs.length)) ∧
    (∀ name₁ name₂ ref₁ ref₂, r₂.2.sharedPrograms.lookup name₁ = some ref₁ →
      r₂.2.sharedPrograms.lookup name₂ = some ref₂ → name₁ ≠ name₂ → ref₁ ≠ ref₂) ∧
    (∀ a b c d : String, (a, b) ≠ (c, d) → (a.length = c.length ∨ b.length = d.length) →
      pooledName a b ≠ pooledName c d) := by
  intro w₀ r₁ w₁ r₂
  -- the invariant along the run
  have t₀ : w₀.Tracked (callNames before ++ []) :=
    acquireAll_tracked before World.empty [] World.tracked_empty
  have t₁ : r₁.2.Tracked ((v₁, f₁) :: (callNames before ++ [])) :=
    getPooledShader_tracked v₁ f₁ s₁ w₀ _ t₀
  have t₂ : w₁.Tracked (callNames between ++ ((v₁, f₁) :: (callNames before ++ []))) :=
    acquireAll_tracked between r₁.2 _ t₁
  have t₃ : r₂.2.Tracked
      ((v₂, f₂) :: (callNames between ++ ((v₁, f₁) :: (callNames before ++ [])))) :=
    getPooledShader_tracked v₂ f₂ s₂ w₁ _ t₂
  -- the two keys are bound to the two references in the end
  have l₁ : r₁.2.sharedPrograms.lookup (pooledName v₁ f₁) = some r₁.1 :=
    getPooledShader_lookup v₁ f₁ s₁ w₀
  have l₁' : w₁.sharedPrograms.lookup (pooledName v₁ f₁) = some r₁.1 :=
    acquireAll_keeps _ _ between _ l₁
  have l₁'' : r₂.2.sharedPrograms.lookup (pooledName v₁ f₁) = some r₁.1 :=
    getPooledShader_keeps _ _ v₂ f₂ s₂ w₁ l₁'
  have l₂ : r₂.2.sharedPrograms.lookup (pooledName v₂ f₂) = some r₂.1 :=
    getPooledShader_lookup v₂ f₂ s₂ w₁
  have hne : r₁.1 ≠ r₂.1 := by
    intro e
    rw [e] at l₁''
    exact hkey (t₃.lookup_separates _ _ _ l₁'' l₂)
  -- the program of the first call, where it was made and in the end
  obtain ⟨p₁, hp₁, k₁, m₁⟩ := t₁ _ _ l₁
  obtain ⟨a₁, e₁⟩ := acquireAll_programs between r₁.2
  obtain ⟨a₂, e₂⟩ := getPooledShader_programs v₂ f₂ s₂ w₁
  have hp₁' : r₂.2.programs[r₁.1]? = some p₁ := by
    rw [e₂, e₁]
    exact getElem?_of_append _ _ _ _ (getElem?_of_append _ _ _ _ hp₁)
  obtain ⟨p₂, hp₂, k₂, m₂⟩ := t₃ _ _ l₂
  refine ⟨hne, ⟨p₁, p₂, hp₁', hp₂, k₁, k₂, ?_, ?_, ?_, ?_⟩, ?_, ?_⟩
  · intro hown
    simp only [List.append_nil, List.mem_cons] at m₁
    rcases m₁ with m₁ | m₁
    · exact ⟨congrArg Prod.fst m₁, congrArg Prod.snd m₁⟩
    · have e := hown _ m₁ k₁
      exact ⟨congrArg Prod.fst e, congrArg Prod.snd e⟩
  · intro hown
    simp only [List.append_nil, List.mem_cons, List.mem_append] at m₂
    rcases m₂ with m₂ | m₂ | m₂ | m₂
    · exact ⟨congrArg Prod.fst m₂, congrArg Prod.snd m₂⟩
    · have e := hown _ (List.mem_append_right _ m₂) k₂
      exact ⟨congrArg Prod.fst e, congrArg Prod.snd e⟩
    · exfalso
      apply hkey
      have hv : p₂.vertexShader = v₁ := congrArg Prod.fst m₂
      have hf : p₂.fragmentShader = f₁ := congrArg Prod.snd m₂
      rw [← k₂, hv, hf]
    · have e := hown _ (List.mem_append_left _ m₂) k₂
      exact ⟨congrArg Prod.fst e, congrArg Prod.snd e⟩
  · intro hfresh
    have hr : getPooledShader v₁ f₁ s₁ w₀ = _ := getPooledShader_miss v₁ f₁ s₁ w₀ hfresh
    have hp : r₁.2.programs[r₁.1]? = some (freshProgram v₁ f₁ s₁ w₀.programs.length) := by
      show (getPooledShader v₁ f₁ s₁ w₀).2.programs[(getPooledShader v₁ f₁ s₁ w₀).1]? = _
      rw [hr]
      simp
    rw [hp₁] at hp
    exact Option.some.inj hp
  · intro hfresh
    have hr : getPooledShader v₂ f₂ s₂ w₁ = _ := getPooledShader_miss v₂ f₂ s₂ w₁ hfresh
    have hp : r₂.2.programs[r₂.1]? = some (freshProgram v₂ f₂ s₂ w₁.programs.length) := by
      show (getPooledShader v₂ f₂ s₂ w₁).2.programs[(getPooledShader v₂ f₂ s₂ w₁).1]? = _
      rw [hr]
      simp
    rw [hp₂] at hp
    exact Option.some.inj hp
  · intro name₁ name₂ ref₁ ref₂ h₁ h₂ hn e
    rw [e] at h₁
    exact hn (t₃.lookup_separates _ _ _ h₁ h₂)
  · intro a b c d hne' hlen
    exact pooledName_injective_of_length a b c d hne' hlen

/-- Witness of C7: after a Lambert variant has been acquired, the same
variant and a Phong variant, of other name lengths, are acquired: the first
is found in the pool, the second is made, and the two programs differ. -/
theorem C7_distinct_keys_distinct_programs_witness :
    pooledName "lambert_vsh" "lambert_c_fsh" ≠ pooledName "phong_vsh" "phong_c_fsh" ∧
    (getPooledShader "lambert_vsh" "lambert_c_fsh" []
        (acquireAll [("lambert_vsh", "lambert_c_fsh", [])] World.empty)).1
      ≠ (getPooledShader "phong_vsh" "phong_c_fsh" ["specular_texture"]
          (acquireAll []
            (getPooledShader "lambert_vsh" "lambert_c_fsh" []
              (acquireAll [("lambert_vsh", "lambert_c_fsh", [])] World.empty)).2)).1 :=
  ⟨by decide,
    (C7_distinct_keys_distinct_programs [("lambert_vsh", "lambert_c_fsh", [])] []
      "lambert_vsh" "lambert_c_fsh" "phong_vsh" "phong_c_fsh" [] ["specular_texture"]
      (by decide)).1⟩

/-! ## Hydration -/

theorem addLightUniforms_frame (p : VROShaderProgram) (i : Nat) :
    (addLightUniforms p i).frame = p.frame := by
  simp only [addLightUniforms, VROShaderProgram.addUniform, VROShaderProgram.frame]

theorem foldl_addLightUniforms_frame (l : List Nat) (p : VROShaderProgram) :
    (l.foldl addLightUniforms p).frame = p.frame := by
  induction l generalizing p with
  | nil => rfl
  | cons a rest ih => rw [List.foldl_cons, ih, addLightUniforms_frame]

theorem addUniforms_frame (self : VROMaterialSubstrateOpenGL) (p : VROShaderProgram) :
    (addUniforms self p).2.frame = p.frame := by
  have h := foldl_addLightUniforms_frame (List.range kMaxLights)
    ((((p.addUniform VROShaderProperty.Int 1 "lighting.num_lights").1).addUniform
      VROShaderProperty.Vec3 1 "lighting.ambient_light_color").1)
  unfold addUniforms
  simp only [VROShaderProgram.frame, VROShaderProgram.addUniform] at h ⊢
  exact h

theorem loadPooled_miss (c : ShaderChoice) (self : VROMaterialSubstrateOpenGL) (w : World)
    (h : w.sharedPrograms.lookup (pooledName c.vertexShader c.fragmentShader) = none) :
    loadPooled c self w =
      ((addUniforms { self with
            textures := self.textures ++ c.textures, program := some w.programs.length }
          (freshProgram c.vertexShader c.fragmentShader c.samplers w.programs.length)).1,
        ⟨w.programs ++ [hydrateProgram (addUniforms { self with
            textures := self.textures ++ c.textures, program := some w.programs.length }
          (freshProgram c.vertexShader c.fragmentShader c.samplers w.programs.length)).2],
          (pooledName c.vertexShader c.fragmentShader, w.programs.length)
            :: w.sharedPrograms⟩) := by
  unfold loadPooled
  simp only [getPooledShader_miss _ _ _ _ h]
  simp [VROShaderProgram.isHydrated, freshProgram]

theorem loadPooled_hit (c : ShaderChoice) (self : VROMaterialSubstrateOpenGL) (w : World)
    (ref : Nat) (program : VROShaderProgram)
    (h : w.sharedPrograms.lookup (pooledName c.vertexShader c.fragmentShader) = some ref)
    (hp : w.programs[ref]? = some program) (hh : program.hydrated = true) :
    loadPooled c self w =
      (loadUniforms { self with
          textures := self.textures ++ c.textures, program := some ref } program, w) := by
  unfold loadPooled
  simp only [getPooledShader_hit _ _ _ _ _ h]
  simp [hp, VROShaderProgram.isHydrated, hh]

theorem loadPooledShiny_miss (c : ShaderChoice) (self : VROMaterialSubstrateOpenGL) (w : World)
    (h : w.sharedPrograms.lookup (pooledName c.vertexShader c.fragmentShader) = none) :
    loadPooledShiny c self w =
      ({ (addUniforms { self with
              textures := self.textures ++ c.textures, program := some w.programs.length }
            (freshProgram c.vertexShader c.fragmentShader c.samplers w.programs.length)).1 with
          shininessUniform := ((addUniforms { self with
              textures := self.textures ++ c.textures, program := some w.programs.length }
            (freshProgram c.vertexShader c.fragmentShader c.samplers
              w.programs.length)).2.addUniform VROShaderProperty.Float 1
                "material_shininess").2 },
        ⟨w.programs ++ [hydrateProgram ((addUniforms { self with
            textures := self.textures ++ c.textures, program := some w.programs.length }
          (freshProgram c.vertexShader c.fragmentShader c.samplers
            w.programs.length)).2.addUniform VROShaderProperty.Float 1
              "material_shininess").1],
          (pooledName c.vertexShader c.fragmentShader, w.programs.length)
            :: w.sharedPrograms⟩) := by
  unfold loadPooledShiny
  simp only [getPooledShader_miss _ _ _ _ h]
  simp [VROShaderProgram.isHydrated, freshProgram]

theorem loadPooledShiny_hit (c : ShaderChoice) (self : VROMaterialSubstrateOpenGL) (w : World)
    (ref : Nat) (program : VROShaderProgram)
    (h : w.sharedPrograms.lookup (pooledName c.vertexShader c.fragmentShader) = some ref)
    (hp : w.programs[ref]? = some program) (hh : program.hydrated = true) :
    loadPooledShiny c self w =
      (loadUniforms { self with
          textures := self.textures ++ c.textures, program := some ref,
          shininessUniform := program.getUniform "material_shininess" } program, w) := by
  unfold loadPooledShiny
  simp only [getPooledShader_hit _ _ _ _ _ h]
  simp [hp, VROShaderProgram.isHydrated, hh]

theorem construct_miss (material : VROMaterial) (w : World)
    (h : w.sharedPrograms.lookup (materialPooledName material) = none) :
    (construct material w).1.program = some w.programs.length ∧
    (construct material w).2
      = ⟨w.programs ++ [firstUseProgram material w.programs.length],
          (materialPooledName material, w.programs.length) :: w.sharedPrograms⟩ := by
  rw [construct_eq_resolve]
  unfold loadTail firstUseProgram usesShininess boundSubstrate
  split
  · rw [loadPooledShiny_miss _ _ _ h]
    simp [VROMaterialSubstrateOpenGL.initial, materialPooledName, addUniforms]
  · rw [loadPooled_miss _ _ _ h]
    simp [VROMaterialSubstrateOpenGL.initial, materialPooledName, addUniforms]

theorem construct_hit (material : VROMaterial) (w : World) (ref : Nat)
    (program : VROShaderProgram)
    (h : w.sharedPrograms.lookup (materialPooledName material) = some ref)
    (hp : w.programs[ref]? = some program) (hh : program.hydrated = true) :
    construct material w = (laterUseSubstrate material ref program, w) := by
  rw [construct_eq_resolve]
  unfold loadTail laterUseSubstrate usesShininess boundSubstrate
  split
  · rw [loadPooledShiny_hit _ _ _ ref program h hp hh]
    simp [VROMaterialSubstrateOpenGL.initial]
  · rw [loadPooled_hit _ _ _ ref program h hp hh]
    simp [VROMaterialSubstrateOpenGL.initial]

theorem firstUseProgram_frame (material : VROMaterial) (ref : Nat) :
    (firstUseProgram material ref).frame
      = ((resolve material).vertexShader, (resolve material).fragmentShader,
          [VROShaderMask.Tex, VROShaderMask.Norm], (resolve material).samplers, true, 1, ref) := by
  have h := addUniforms_frame (boundSubstrate material ref)
    (freshProgram (resolve material).vertexShader (resolve material).fragmentShader
      (resolve material).samplers ref)
  unfold firstUseProgram
  simp only [VROShaderProgram.frame, Prod.mk.injEq] at h
  obtain ⟨h1, h2, h3, h4, _, h6, h7⟩ := h
  split <;>
    simp only [VROShaderProgram.frame, hydrateProgram, VROShaderProgram.hydrate,
      VROShaderProgram.addUniform, Prod.mk.injEq, true_and] <;>
    exact ⟨h1, h2, h3, h4, by rw [h6]; rfl, h7⟩

theorem World.settled_empty : World.empty.Settled := by
  constructor
  · intro p hp; cases hp
  · intro name ref h; cases h

theorem lookup_eq_none_or_some (name : String) (l : List (String × Nat)) :
    l.lookup name = none ∨ ∃ ref, l.lookup name = some ref := by
  cases h : l.lookup name with
  | none => exact Or.inl rfl
  | some ref => exact Or.inr ⟨ref, rfl⟩

/-- A construction on a settled state leaves it settled, and leaves the
programs that were in the heap where and as they were. -/
theorem construct_settled (material : VROMaterial) (w : World) (hw : w.Settled) :
    (construct material w).2.Settled ∧
    ∃ added, (construct material w).2.programs = w.programs ++ added := by
  rcases lookup_eq_none_or_some (materialPooledName material) w.sharedPrograms with h | ⟨ref, h⟩
  · obtain ⟨_, e⟩ := construct_miss material w h
    rw [e]
    refine ⟨⟨?_, ?_⟩, ⟨_, rfl⟩⟩
    · intro p hp
      rcases List.mem_append.mp hp with hp | hp
      · exact hw.1 p hp
      · rw [List.mem_singleton] at hp
        have hf := firstUseProgram_frame material w.programs.length
        simp only [VROShaderProgram.frame, Prod.mk.injEq] at hf
        rw [hp]
        exact ⟨hf.2.2.2.2.1, hf.2.2.2.2.2.1⟩
    · intro name r hl
      simp only [List.length_append, List.length_singleton]
      by_cases hn : name = materialPooledName material
      · subst hn
        simp only [List.lookup_cons, beq_self_eq_true] at hl
        have : w.programs.length = r := Option.some.inj hl
        omega
      · have hb : (name == materialPooledName material) = false := by simp [hn]
        simp only [List.lookup_cons, hb] at hl
        have := hw.2 name r hl
        omega
  · have hlt := hw.2 _ _ h
    have hp : w.programs[ref]? = some w.programs[ref] := List.getElem?_eq_getElem hlt
    have hh := (hw.1 _ (List.getElem_mem hlt)).1
    rw [construct_hit material w ref _ h hp hh]
    exact ⟨hw, ⟨[], by simp⟩⟩

theorem constructAll_settled (materials : List VROMaterial) (w : World) (hw : w.Settled) :
    (constructAll materials w).Settled ∧
    ∃ added, (constructAll materials w).programs = w.programs ++ added := by
  induction materials generalizing w with
  | nil => exact ⟨hw, ⟨[], by simp [constructAll]⟩⟩
  | cons m rest ih =>
    obtain ⟨hs, a₁, e₁⟩ := construct_settled m w hw
    obtain ⟨hs', a₂, e₂⟩ := ih _ hs
    have hstep : constructAll (m :: rest) w = constructAll rest (construct m w).2 := by
      simp [constructAll]
    rw [hstep]
    refine ⟨hs', ⟨a₁ ++ a₂, ?_⟩⟩
    rw [e₂, e₁, List.append_assoc]

/-- Claim C8. With `hydrate()` marking a program as hydrated, over every
sequence of constructions from process start: every program of the heap is
hydrated and was hydrated exactly once; a construction whose pool name is
unbound makes the program, declares its uniforms and hydrates it in that
same construction; a construction whose pool name is bound finds the program
hydrated, only looks its handles up by name and leaves the whole state
(every uniform and sampler table included) as it was; and no later sequence
of constructions changes a program that is in the heap. -/
theorem C8_hydrated_once (materials later : List VROMaterial) (material : VROMaterial) :
    (∀ p ∈ (constructAll materials World.empty).programs,
      p.hydrated = true ∧ p.hydrations = 1) ∧
    ((constructAll materials World.empty).sharedPrograms.lookup (materialPooledName material)
        = none →
      (construct material (constructAll materials World.empty)).1.program
        = some (constructAll materials World.empty).programs.length ∧
      (construct material (constructAll materials World.empty)).2.programs
        = (constructAll materials World.empty).programs
          ++ [firstUseProgram material (constructAll materials World.empty).programs.length] ∧
      (firstUseProgram material (constructAll materials World.empty).programs.length).hydrated
        = true ∧
      (firstUseProgram material (constructAll materials World.empty).programs.length).hydrations
        = 1 ∧
      (firstUseProgram material (constructAll materials World.empty).programs.length).samplers
        = (resolve material).samplers) ∧
    (∀ ref, (constructAll materials World.empty).sharedPrograms.lookup
        (materialPooledName material) = some ref →
      ∃ program, (constructAll materials World.empty).programs[ref]? = some program ∧
        program.hydrated = true ∧ program.hydrations = 1 ∧
        construct material (constructAll materials World.empty)
          = (laterUseSubstrate material ref program, constructAll materials World.empty)) ∧
    (∀ (i : Nat) (program : VROShaderProgram),
      (constructAll materials World.empty).programs[i]? = some program →
      (constructAll later (constructAll materials World.empty)).programs[i]? = some program) := by
  obtain ⟨hw, _⟩ := constructAll_settled materials World.empty World.settled_empty
  refine ⟨hw.1, ?_, ?_, ?_⟩
  · intro h
    obtain ⟨e₁, e₂⟩ := construct_miss material _ h
    have hf := firstUseProgram_frame material (constructAll materials World.empty).programs.length
    simp only [VROShaderProgram.frame, Prod.mk.injEq] at hf
    refine ⟨e₁, by rw [e₂], hf.2.2.2.2.1, hf.2.2.2.2.2.1, hf.2.2.2.1⟩
  · intro ref h
    have hlt := hw.2 _ _ h
    have hp : (constructAll materials World.empty).programs[ref]?
        = some (constructAll materials World.empty).programs[ref] :=
      List.getElem?_eq_getElem hlt
    have hh := hw.1 _ (List.getElem_mem hlt)
    exact ⟨_, hp, hh.1, hh.2, construct_hit material _ ref _ h hp hh.1⟩
  · intro i program hi
    obtain ⟨_, added, e⟩ := constructAll_settled later _ hw
    rw [e]
    have hlt : i < (constructAll materials World.empty).programs.length := by
      by_contra hge
      rw [List.getElem?_eq_none (by omega)] at hi
      exact Option.noConfusion hi
    rw [List.getElem?_append_left hlt]
    exact hi

/-- Witness of C8: after a Lambert and a Phong substrate have been
constructed from process start, a second Phong construction finds its
program, at reference 1, hydrated, and leaves the state as it was. -/
theorem C8_hydrated_once_witness :
    ∃ program,
      (constructAll
        [sampleMaterial VROLightingModel.Lambert fixedVisual fixedVisual fixedVisual,
          sampleMaterial VROLightingModel.Phong (textureVisual 7) (textureVisual 3) fixedVisual]
        World.empty).programs[1]? = some program ∧
      program.hydrated = true ∧ program.hydrations = 1 ∧
      construct
          (sampleMaterial VROLightingModel.Phong (textureVisual 8) (textureVisual 4) fixedVisual)
          (constructAll
            [sampleMaterial VROLightingModel.Lambert fixedVisual fixedVisual fixedVisual,
              sampleMaterial VROLightingModel.Phong (textureVisual 7) (textureVisual 3)
                fixedVisual]
            World.empty)
        = (laterUseSubstrate
            (sampleMaterial VROLightingModel.Phong (textureVisual 8) (textureVisual 4)
              fixedVisual) 1 program,
          constructAll
            [sampleMaterial VROLightingModel.Lambert fixedVisual fixedVisual fixedVisual,
              sampleMaterial VROLightingModel.Phong (textureVisual 7) (textureVisual 3)
                fixedVisual]
            World.empty) :=
  (C8_hydrated_once
    [sampleMaterial VROLightingModel.Lambert fixedVisual fixedVisual fixedVisual,
      sampleMaterial VROLightingModel.Phong (textureVisual 7) (textureVisual 3) fixedVisual]
    []
    (sampleMaterial VROLightingModel.Phong (textureVisual 8) (textureVisual 4)
      fixedVisual)).2.2.1 1 (by decide)

/-! ## The hash of the bound textures -/

theorem hashTextures_append (textures : List VROTexture) (t : VROTexture) :
    hashTextures (textures ++ [t]) = (31 * hashTextures textures + t.textureId) % 2 ^ 32 := by
  simp [hashTextures, List.foldl_append]

theorem texturePolynomial_append (textures : List VROTexture) (t : VROTexture) :
    texturePolynomial (textures ++ [t]) = 31 * texturePolynomial textures + t.textureId := by
  unfold texturePolynomial
  rw [List.length_append, List.length_singleton, Finset.sum_range_succ, Finset.mul_sum]
  congr 1
  · apply Finset.sum_congr rfl
    intro i hi
    have hlt : i < textures.length := Finset.mem_range.mp hi
    have hexp : textures.length + 1 - 1 - i = (textures.length - 1 - i) + 1 := by omega
    rw [List.getD_append _ _ _ _ hlt, hexp, pow_succ]
    ring
  · simp [List.getD_append_right]

theorem hashTextures_eq_polynomial (textures : List VROTexture) :
    hashTextures textures = texturePolynomial textures % 2 ^ 32 := by
  induction textures using List.reverseRecOn with
  | nil => simp [hashTextures, texturePolynomial]
  | append_singleton rest t ih =>
    rw [hashTextures_append, texturePolynomial_append, ih]
    omega

/-- Claim C9. `updateSortKey` sets the shader field of the key to the numeric
identity of the substrate's program and the textures field to the hash of
the bound textures; `hashTextures` is `h = 0; h = 31 * h + id` over the
textures in binding order in unsigned 32-bit arithmetic, that is the sum of
`id_i * 31 ^ (n - 1 - i)` modulo `2 ^ 32`; the empty list hashes to 0 and
appending a texture `t` to a list of hash `h` gives `(31 * h + t) mod 2 ^ 32`. -/
theorem C9_sort_key_hash (self : VROMaterialSubstrateOpenGL) (w : World) (key : VROSortKey)
    (ref : Nat) (program : VROShaderProgram) (textures : List VROTexture) (t : VROTexture)
    (hp : self.program = some ref) (hw : w.programs[ref]? = some program) :
    updateSortKey self w key = some ⟨program.shaderId, hashTextures self.textures⟩ ∧
    hashTextures textures
      = textures.foldl (fun h texture => (31 * h + texture.textureId) % 2 ^ 32) 0 ∧
    hashTextures textures
      = (∑ i ∈ Finset.range textures.length,
          (textures.getD i ⟨0⟩).textureId * 31 ^ (textures.length - 1 - i)) % 2 ^ 32 ∧
    hashTextures [] = 0 ∧
    hashTextures (textures ++ [t]) = (31 * hashTextures textures + t.textureId) % 2 ^ 32 := by
  refine ⟨?_, rfl, hashTextures_eq_polynomial textures, rfl, hashTextures_append textures t⟩
  unfold updateSortKey
  simp only [hp, hw]

/-- Witness of C9: the sort key of a Phong substrate constructed at process
start, with textures 7 and 3 bound in that order. -/
theorem C9_sort_key_hash_witness :
    updateSortKey
        (construct (sampleMaterial VROLightingModel.Phong (textureVisual 7) (textureVisual 3)
          fixedVisual) World.empty).1
        (construct (sampleMaterial VROLightingModel.Phong (textureVisual 7) (textureVisual 3)
          fixedVisual) World.empty).2 ⟨5, 5⟩
      = some ⟨0, 220⟩ ∧
    hashTextures [⟨7⟩, ⟨3⟩, ⟨4294967295⟩] = 6819 :=
  have h := C9_sort_key_hash
    (construct (sampleMaterial VROLightingModel.Phong (textureVisual 7) (textureVisual 3)
      fixedVisual) World.empty).1
    (construct (sampleMaterial VROLightingModel.Phong (textureVisual 7) (textureVisual 3)
      fixedVisual) World.empty).2 ⟨5, 5⟩ 0
    (firstUseProgram (sampleMaterial VROLightingModel.Phong (textureVisual 7) (textureVisual 3)
      fixedVisual) 0)
    [⟨7⟩, ⟨3⟩] ⟨4294967295⟩ (by decide) (by decide)
  ⟨h.1, h.2.2.2.2⟩

/-- Counterexample to C10 as stated: the identities 0 and `2 ^ 31` are
different 32-bit values, and the two orders hash to the same value. -/
theorem C10_order_collision_counterexample :
    (0 : Nat) ≠ 2147483648 ∧ (2147483648 : Nat) < 2 ^ 32 ∧
    hashTextures [⟨0⟩, ⟨2147483648⟩] = hashTextures [⟨2147483648⟩, ⟨0⟩] := by
  decide

/-- Claim C10, amended. The texture hash tells the two orders of a pair of
textures apart exactly when their identities differ modulo `2 ^ 31`: for any
two identities `a` and `b`, `hashTextures [A, B] ≠ hashTextures [B, A]` iff
`a mod 2 ^ 31 ≠ b mod 2 ^ 31`; in particular for any two different identities
below `2 ^ 31`. -/
theorem C10_order_sensitive (a b : Nat) :
    (hashTextures [⟨a⟩, ⟨b⟩] ≠ hashTextures [⟨b⟩, ⟨a⟩] ↔ a % 2 ^ 31 ≠ b % 2 ^ 31) ∧
    (a < 2 ^ 31 → b < 2 ^ 31 → a ≠ b →
      hashTextures [⟨a⟩, ⟨b⟩] ≠ hashTextures [⟨b⟩, ⟨a⟩]) := by
  have e₁ : hashTextures [⟨a⟩, ⟨b⟩] = (31 * ((31 * 0 + a) % 4294967296) + b) % 4294967296 := rfl
  have e₂ : hashTextures [⟨b⟩, ⟨a⟩] = (31 * ((31 * 0 + b) % 4294967296) + a) % 4294967296 := rfl
  have p₁ : (2 : Nat) ^ 31 = 2147483648 := by norm_num
  rw [e₁, e₂, p₁]
  clear e₁ e₂ p₁
  have key : (31 * ((31 * 0 + a) % 4294967296) + b) % 4294967296
        ≠ (31 * ((31 * 0 + b) % 4294967296) + a) % 4294967296
      ↔ a % 2147483648 ≠ b % 2147483648 := by
    omega
  refine ⟨key, fun ha hb hab => key.mpr ?_⟩
  rw [Nat.mod_eq_of_lt ha, Nat.mod_eq_of_lt hb]
  exact hab

/-- Witness of C10: the identities 1 and 2. -/
theorem C10_order_sensitive_witness :
    hashTextures [⟨1⟩, ⟨2⟩] ≠ hashTextures [⟨2⟩, ⟨1⟩] :=
  (C10_order_sensitive 1 2).2 (by decide) (by decide) (by decide)

/-! ## The lighting block -/

theorem bindLightsBody_num_lights (st : BindLightsState) (i : Nat) (light : VROLight) :
    (bindLightsBody st i light).data.num_lights = st.data.num_lights := by
  unfold bindLightsBody
  split
  · split <;> rfl
  · rfl

theorem bindLightsLoop_num_lights (lights : List VROLight) (i : Nat) (st : BindLightsState) :
    (bindLightsLoop lights i st).data.num_lights = st.data.num_lights := by
  induction lights generalizing i st with
  | nil => rfl
  | cons light rest ih =>
    rw [bindLightsLoop]
    split
    · rw [ih, bindLightsBody_num_lights]
    · rw [bindLightsBody_num_lights]

/-- The count assigned by `bindLights` is the number of lights, cast to
`int`; it is `min n 8` as long as there are at most eight lights. -/
theorem bindLights_num_lights (lights : List VROLight) :
    (bindLights lights).data.num_lights = castToInt lights.length ∧
    (lights.length ≤ 8 →
      (bindLights lights).data.num_lights = ((min lights.length 8 : Nat) : Int)) := by
  have h : (bindLights lights).data.num_lights = castToInt lights.length := by
    unfold bindLights
    simp only
    split <;> simp only [bindLightsLoop_num_lights]
  refine ⟨h, fun hle => ?_⟩
  rw [h, Nat.min_eq_left hle]
  unfold castToInt
  have h1 : lights.length % 2 ^ 32 = lights.length := Nat.mod_eq_of_lt (by omega)
  rw [h1, if_pos (by omega)]

/-- Claim C11, the code at nine lights: the count written is 9, where
`min 9 8` is 8. -/
theorem C11_count_of_nine_lights :
    nineLights.length = 9 ∧ (bindLights nineLights).data.num_lights = 9 ∧
    (bindLights nineLights).data.num_lights ≠ ((min nineLights.length 8 : Nat) : Int) := by
  decide

theorem bindLightsBody_outOfBounds (st : BindLightsState) (i : Nat) (light : VROLight) :
    (bindLightsBody st i light).outOfBounds
      = if i < 8 then st.outOfBounds else st.outOfBounds ++ [(i, lightRecord light)] := by
  unfold bindLightsBody lightsCapacity
  by_cases h : i < 8 <;> by_cases ha : light.type = VROLightType.Ambient <;> simp [h, ha]

/-- With room in the array for all the lights that remain, the loop makes no
assignment out of bounds. -/
theorem bindLightsLoop_outOfBounds_of_le (lights : List VROLight) (k : Nat)
    (st : BindLightsState) (h : k + lights.length ≤ 8) :
    (bindLightsLoop lights k st).outOfBounds = st.outOfBounds := by
  induction lights generalizing k st with
  | nil => rfl
  | cons light rest ih =>
    rw [List.length_cons] at h
    have hk : k < lightsCapacity := by unfold lightsCapacity; omega
    rw [bindLightsLoop, if_pos hk, ih (k + 1) _ (by omega), bindLightsBody_outOfBounds,
      if_pos (by omega)]

/-- When there is a light for index 8, the loop comes to the assignment of
its record to `data.lights[8]` and ends there. -/
theorem bindLightsLoop_outOfBounds_of_gt (lights : List VROLight) (k : Nat)
    (st : BindLightsState) (light : VROLight) (hk : k ≤ 8) (hl : lights[8 - k]? = some light)
    (hst : st.outOfBounds = []) :
    (bindLightsLoop lights k st).outOfBounds = [(8, lightRecord light)] := by
  induction lights generalizing k st with
  | nil => simp at hl
  | cons first rest ih =>
    rw [bindLightsLoop]
    by_cases h8 : k < 8
    · have hc : k < lightsCapacity := h8
      rw [if_pos hc]
      have e : 8 - k = (8 - (k + 1)) + 1 := by omega
      rw [e, List.getElem?_cons_succ] at hl
      exact ih (k + 1) _ (by omega) hl (by rw [bindLightsBody_outOfBounds, if_pos h8, hst])
    · have hc : ¬ k < lightsCapacity := h8
      have e : k = 8 := by omega
      subst e
      simp only [Nat.sub_self, List.getElem?_cons_zero, Option.some.injEq] at hl
      subst hl
      rw [if_neg hc, bindLightsBody_outOfBounds, if_neg h8, hst, List.nil_append]

/-- The loop of `bindLights` stays inside the array exactly when there are at
most eight lights; with more, it assigns the record of the ninth light to
`data.lights[8]`, and no record is handed to `glBufferSubData`. -/
theorem bindLights_outOfBounds (lights : List VROLight) :
    (lights.length ≤ 8 →
      (bindLights lights).outOfBounds = [] ∧
      uploadedLighting lights = some (bindLights lights).data) ∧
    (∀ light, lights[8]? = some light →
      (bindLights lights).outOfBounds = [(8, lightRecord light)] ∧
      uploadedLighting lights = none) := by
  constructor
  · intro h
    have hloop := bindLightsLoop_outOfBounds_of_le lights 0
      ⟨⟨castToInt lights.length, none, List.replicate lightsCapacity none⟩, VROVector3f.zero, []⟩
      (by omega)
    have hout : (bindLights lights).outOfBounds = [] := by
      unfold bindLights
      simp only [hloop, if_true]
    exact ⟨hout, by unfold uploadedLighting; rw [if_pos hout]⟩
  · intro light hl
    have hloop := bindLightsLoop_outOfBounds_of_gt lights 0
      ⟨⟨castToInt lights.length, none, List.replicate lightsCapacity none⟩, VROVector3f.zero, []⟩
      light (by omega) hl rfl
    have hout : (bindLights lights).outOfBounds = [(8, lightRecord light)] := by
      unfold bindLights
      simp only [hloop]
      rw [if_neg (by simp)]
      exact hloop
    refine ⟨hout, ?_⟩
    unfold uploadedLighting
    rw [hout]
    rfl

/-- Claim C12, the code at nine lights: the ninth light is assigned to
`data.lights[8]`, outside the eight slots of the array. -/
theorem C12_ninth_light_out_of_bounds :
    (bindLights nineLights).data.lights.length = 8 ∧
    (bindLights nineLights).outOfBounds
      = [(8, lightRecord (sampleLight VROLightType.Ambient 1 2 3))] := by
  decide

theorem bindLightsBody_ambientLight (st : BindLightsState) (i : Nat) (light : VROLight)
    (hi : i < 8) :
    (bindLightsBody st i light).ambientLight
      = if light.type = VROLightType.Ambient then st.ambientLight.add light.color
        else st.ambientLight := by
  unfold bindLightsBody lightsCapacity
  rw [if_pos hi]
  split <;> rfl

theorem bindLightsLoop_ambientLight (lights : List VROLight) (k : Nat) (st : BindLightsState)
    (h : k + lights.length ≤ 8) :
    (bindLightsLoop lights k st).ambientLight
      = ((lights.filter (fun l => l.type = VROLightType.Ambient)).map (fun l => l.color)).foldl
          VROVector3f.add st.ambientLight := by
  induction lights generalizing k st with
  | nil => rfl
  | cons light rest ih =>
    rw [List.length_cons] at h
    have hk : k < lightsCapacity := by unfold lightsCapacity; omega
    rw [bindLightsLoop, if_pos hk, ih (k + 1) _ (by omega),
      bindLightsBody_ambientLight st k light (by omega)]
    by_cases ha : light.type = VROLightType.Ambient <;> simp [ha, List.filter_cons]

/-- For at most eight lights the ambient colour written to the record is the
sum of the colours of the lights of type Ambient: the sum of floats, taken
from the zero vector on in the order of the list. -/
theorem bindLights_ambient_of_le (lights : List VROLight) (h : lights.length ≤ 8) :
    (bindLights lights).data.ambient_light_color
      = some (((lights.filter (fun l => l.type = VROLightType.Ambient)).map
          (fun l => l.color)).foldl VROVector3f.add VROVector3f.zero) := by
  have hloop := bindLightsLoop_outOfBounds_of_le lights 0
    ⟨⟨castToInt lights.length, none, List.replicate lightsCapacity none⟩, VROVector3f.zero, []⟩
    (by omega)
  unfold bindLights
  simp only [hloop, if_true]
  rw [bindLightsLoop_ambientLight lights 0 _ (by omega)]

/-- Claim C13, the code at nine lights of which the ninth is the only ambient
one: the loop comes to the assignment of `data.lights[8]`, outside the array,
before the colour of that light is added; the behaviour is undefined from
there, no ambient colour is written and no record is handed to
`glBufferSubData`, where the claim has the ambient colour `(1, 2, 3)`. -/
theorem C13_ambient_of_nine_lights :
    (nineLights.filter (fun l => l.type = VROLightType.Ambient)).map (fun l => l.color)
      = [⟨1, 2, 3⟩] ∧
    nineLights[8]? = some (sampleLight VROLightType.Ambient 1 2 3) ∧
    (bindLights nineLights).outOfBounds ≠ [] ∧
    (bindLights nineLights).data.ambient_light_color = none ∧
    uploadedLighting nineLights = none := by
  decide

theorem bindLightsBody_lights (st : BindLightsState) (i : Nat) (light : VROLight) :
    (bindLightsBody st i light).data.lights
      = if i < 8 then st.data.lights.set i (some (lightRecord light)) else st.data.lights := by
  unfold bindLightsBody lightsCapacity
  by_cases h : i < 8 <;> by_cases ha : light.type = VROLightType.Ambient <;> simp [h, ha]

theorem bindLightsBody_lights_length (st : BindLightsState) (i : Nat) (light : VROLight) :
    (bindLightsBody st i light).data.lights.length = st.data.lights.length := by
  rw [bindLightsBody_lights]
  split <;> simp

/-- The loop from index `k` on leaves the slots below `k` as they are. -/
theorem bindLightsLoop_slot_below (lights : List VROLight) (k j : Nat) (st : BindLightsState)
    (hj : j < k) :
    (bindLightsLoop lights k st).data.lights[j]? = st.data.lights[j]? := by
  induction lights generalizing k st with
  | nil => rfl
  | cons light rest ih =>
    rw [bindLightsLoop]
    split
    · rw [ih (k + 1) _ (by omega), bindLightsBody_lights]
      split
      · rw [List.getElem?_set_ne (by omega)]
      · rfl
    · rw [bindLightsBody_lights]
      split
      · rw [List.getElem?_set_ne (by omega)]
      · rfl

/-- The loop from index `k` on gives the slot `k + i`, when it is in the
array, the record of its light of index `i`. -/
theorem bindLightsLoop_slot (lights : List VROLight) (k i : Nat) (st : BindLightsState)
    (light : VROLight) (hl : lights[i]? = some light) (hcap : k + i < 8)
    (hlen : k + i < st.data.lights.length) :
    (bindLightsLoop lights k st).data.lights[k + i]? = some (some (lightRecord light)) := by
  induction lights generalizing k i st with
  | nil => simp at hl
  | cons first rest ih =>
    have hk : k < lightsCapacity := by unfold lightsCapacity; omega
    rw [bindLightsLoop, if_pos hk]
    cases i with
    | zero =>
      simp only [List.getElem?_cons_zero, Option.some.injEq] at hl
      subst hl
      simp only [Nat.add_zero] at hcap hlen ⊢
      rw [bindLightsLoop_slot_below rest (k + 1) k _ (by omega), bindLightsBody_lights,
        if_pos hcap, List.getElem?_set_self hlen]
    | succ i' =>
      simp only [List.getElem?_cons_succ] at hl
      have e : k + (i' + 1) = (k + 1) + i' := by omega
      rw [e] at hcap hlen ⊢
      exact ih (k + 1) i' _ hl hcap (by rw [bindLightsBody_lights_length]; exact hlen)

/-- For at most eight lights, slot `i` of the record handed to
`glBufferSubData` holds, field by field, the `i`-th submitted light. -/
theorem bindLights_slot_of_le (lights : List VROLight) (i : Nat) (h : lights.length ≤ 8)
    (hi : i < lights.length) :
    ∃ data slot, uploadedLighting lights = some data ∧
      data.lights[i]? = some (some slot) ∧
      slot.type = lights[i].type ∧
      slot.position = lights[i].transformedPosition ∧
      slot.direction = lights[i].direction ∧
      slot.color = lights[i].color ∧
      slot.attenuation_start_distance = lights[i].attenuationStartDistance ∧
      slot.attenuation_end_distance = lights[i].attenuationEndDistance ∧
      slot.attenuation_falloff_exp = lights[i].attenuationFalloffExponent ∧
      slot.spot_inner_angle = lights[i].spotInnerAngle ∧
      slot.spot_outer_angle = lights[i].spotOuterAngle := by
  refine ⟨(bindLights lights).data, lightRecord lights[i],
    ((bindLights_outOfBounds lights).1 h).2, ?_, rfl, rfl, rfl, rfl, rfl, rfl, rfl, rfl, rfl⟩
  have hloop := bindLightsLoop_outOfBounds_of_le lights 0
    ⟨⟨castToInt lights.length, none, List.replicate lightsCapacity none⟩, VROVector3f.zero, []⟩
    (by omega)
  have hslot := bindLightsLoop_slot lights 0 i
    ⟨⟨castToInt lights.length, none, List.replicate lightsCapacity none⟩, VROVector3f.zero, []⟩
    lights[i] (List.getElem?_eq_getElem hi) (by omega)
    (by simp only [List.length_replicate, lightsCapacity]; omega)
  rw [Nat.zero_add] at hslot
  unfold bindLights
  simp only [hloop, if_true]
  exact hslot

/-- Claim C14, the code at nine lights: `min 9 8` is 8, and the claim has the
first eight lights in the slots 0 to 7 of the record; the loop goes on to
index 8 and assigns the record of the ninth light past the end of the array,
from where the behaviour is undefined, and no record is handed to
`glBufferSubData`. -/
theorem C14_record_of_nine_lights :
    min nineLights.length 8 = 8 ∧
    (bindLights nineLights).outOfBounds.map (fun write => write.1) = [8] ∧
    uploadedLighting nineLights = none ∧
    uploadedLighting (nineLights.take 8) ≠ none := by
  decide

/-! ## Binding uniforms -/

theorem mem_writeIfPresent {M : Type} (writes : List (UniformWrite M)) (handle : UniformHandle)
    (value : UniformValue M) (w : UniformWrite M) :
    w ∈ writeIfPresent writes handle value ↔ w ∈ writes ∨ (handle = some w.1 ∧ w.2 = value) := by
  obtain ⟨u, v⟩ := w
  cases handle with
  | none => simp [writeIfPresent]
  | some h =>
    simp only [writeIfPresent, List.mem_append, List.mem_singleton, Prod.mk.injEq,
      Option.some.injEq]
    constructor
    · rintro (h1 | ⟨h1, h2⟩)
      · exact Or.inl h1
      · exact Or.inr ⟨h1.symm, h2⟩
    · rintro (h1 | ⟨h1, h2⟩)
      · exact Or.inl h1
      · exact Or.inr ⟨h1.symm, h2⟩

theorem length_writeIfPresent {M : Type} (writes : List (UniformWrite M))
    (handle : UniformHandle) (value : UniformValue M) :
    (writeIfPresent writes handle value).length
      = writes.length + (if handle.isSome then 1 else 0) := by
  cases handle <;> simp [writeIfPresent]

/-- The product of floats rounds: `0.1f * 0.3f` is `1006633 / 2 ^ 25`, where
the product of the two values is `67553998101545 / 2 ^ 51`. -/
theorem float_product_is_rounded :
    float_0_1 * float_0_3 = Float32.finite false 121 7717520 ∧
    (Float32.finite false 121 7717520).toRat = some (1006633 / 2 ^ 25) ∧
    (13421773 / 2 ^ 27 : Rat) * (10066330 / 2 ^ 25) = 67553998101545 / 2 ^ 51 ∧
    (1006633 / 2 ^ 25 : Rat) ≠ 67553998101545 / 2 ^ 51 := by
  have m : Float32.mantissa 121 7717520 = 16106128 := by decide
  have s : Float32.scale 121 = -29 := by decide
  refine ⟨by decide, ?_, by norm_num, by norm_num⟩
  simp only [Float32.toRat, m, s]
  norm_num

/-- The sum of floats rounds, so that it depends on the order: from
`16777216` adding 1 twice leaves `16777216`, adding `1 + 1 = 2` gives the
next float, `16777218`. -/
theorem float_sum_is_rounded :
    ((16777216 : Float32) + 1) + 1 = 16777216 ∧ (1 : Float32) + 1 = 2 ∧
    (16777216 : Float32) + 2 = Float32.finite false 151 1 ∧
    (16777216 : Float32) = Float32.finite false 151 0 ∧
    (Float32.finite false 151 1).toRat = some 16777218 := by
  have m : Float32.mantissa 151 1 = 8388609 := by decide
  have s : Float32.scale 151 = 1 := by decide
  refine ⟨by decide, by decide, by decide, by decide, ?_⟩
  simp only [Float32.toRat, m, s]
  norm_num

/-- Claim C16. For every model transform `T`, model-view matrix `MV`,
projection matrix `P` and camera position `c`, `bindViewUniforms` with all
five handles present makes exactly five setter calls: the normal matrix is
set to `T.invert().transpose()`, the model matrix to `T`, the model-view
matrix to `MV`, the model-view-projection matrix to `P.multiply(MV)`, the
product with the projection on the left, and the camera position to `c`; no
other call is made. -/
theorem C16_view_uniforms {M : Type} (ops : VROMatrix4fOps M)
    (self : VROMaterialSubstrateOpenGL) (T MV P : M) (c : VROVector3f) (n m mv mvp cam : Nat)
    (hn : self.normalMatrixUniform = some n) (hm : self.modelMatrixUniform = some m)
    (hmv : self.modelViewMatrixUniform = some mv)
    (hmvp : self.modelViewProjectionMatrixUniform = some mvp)
    (hcam : self.cameraPositionUniform = some cam) :
    bindViewUniforms ops self T MV P c
      = [(n, UniformValue.mat4 (ops.transpose (ops.invert T))),
         (m, UniformValue.mat4 T),
         (mv, UniformValue.mat4 MV),
         (mvp, UniformValue.mat4 (ops.multiply P MV)),
         (cam, UniformValue.vec3 c)] := by
  unfold bindViewUniforms
  simp only [hn, hm, hmv, hmvp, hcam, writeIfPresent, List.nil_append, List.cons_append]

/-- Witness of C16: the view uniforms of a substrate constructed at process
start, with the matrices as terms. -/
theorem C16_view_uniforms_witness :
    bindViewUniforms MatrixTerm.ops (construct glassMaterial World.empty).1
        (MatrixTerm.named "T") (MatrixTerm.named "MV") (MatrixTerm.named "P") ⟨1, 2, 3⟩
      = [(39, UniformValue.mat4 (MatrixTerm.transpose (MatrixTerm.invert (MatrixTerm.named "T")))),
         (40, UniformValue.mat4 (MatrixTerm.named "T")),
         (41, UniformValue.mat4 (MatrixTerm.named "MV")),
         (42, UniformValue.mat4
            (MatrixTerm.multiply (MatrixTerm.named "P") (MatrixTerm.named "MV"))),
         (43, UniformValue.vec3 ⟨1, 2, 3⟩)] :=
  C16_view_uniforms MatrixTerm.ops (construct glassMaterial World.empty).1
    (MatrixTerm.named "T") (MatrixTerm.named "MV") (MatrixTerm.named "P") ⟨1, 2, 3⟩
    39 40 41 42 43 (by decide) (by decide) (by decide) (by decide) (by decide)

/-- Claim C17. Absent uniforms are tolerated: for every substrate, whichever
of its handles are absent, `bindViewUniforms` and `bindMaterialUniforms`
return (they are total), the setter calls they make are exactly the
specified values on the handles that are present, one call for each present
handle and none for an absent one, and the call on one handle does not
depend on the presence of another. -/
theorem C17_absent_uniforms_tolerated {M : Type} (ops : VROMatrix4fOps M)
    (self : VROMaterialSubstrateOpenGL) (T MV P : M) (c : VROVector3f) (opacity : Float32) :
    (∀ u v, (u, v) ∈ bindViewUniforms ops self T MV P c ↔
      (self.normalMatrixUniform = some u ∧
          v = UniformValue.mat4 (ops.transpose (ops.invert T))) ∨
      (self.modelMatrixUniform = some u ∧ v = UniformValue.mat4 T) ∨
      (self.modelViewMatrixUniform = some u ∧ v = UniformValue.mat4 MV) ∨
      (self.modelViewProjectionMatrixUniform = some u ∧
          v = UniformValue.mat4 (ops.multiply P MV)) ∨
      (self.cameraPositionUniform = some u ∧ v = UniformValue.vec3 c)) ∧
    (bindViewUniforms ops self T MV P c).length
      = (if self.normalMatrixUniform.isSome then 1 else 0)
        + (if self.modelMatrixUniform.isSome then 1 else 0)
        + (if self.modelViewMatrixUniform.isSome then 1 else 0)
        + (if self.modelViewProjectionMatrixUniform.isSome then 1 else 0)
        + (if self.cameraPositionUniform.isSome then 1 else 0) ∧
    (∀ u v, (u, v) ∈ bindMaterialUniforms M self opacity ↔
      (self.diffuseSurfaceColorUniform = some u ∧
          v = UniformValue.vec4 self.material.diffuse.contentsColor) ∨
      (self.diffuseIntensityUniform = some u ∧
          v = UniformValue.float self.material.diffuse.intensity) ∨
      (self.alphaUniform = some u ∧
          v = UniformValue.float (self.material.transparency * opacity)) ∨
      (self.shininessUniform = some u ∧ v = UniformValue.float self.material.shininess)) ∧
    (bindMaterialUniforms M self opacity).length
      = (if self.diffuseSurfaceColorUniform.isSome then 1 else 0)
        + (if self.diffuseIntensityUniform.isSome then 1 else 0)
        + (if self.alphaUniform.isSome then 1 else 0)
        + (if self.shininessUniform.isSome then 1 else 0) := by
  refine ⟨fun u v => ?_, ?_, fun u v => ?_, ?_⟩
  · unfold bindViewUniforms
    simp only [mem_writeIfPresent, List.not_mem_nil, false_or]
    tauto
  · unfold bindViewUniforms
    simp only [length_writeIfPresent, List.length_nil, Nat.zero_add]
  · unfold bindMaterialUniforms
    simp only [mem_writeIfPresent, List.not_mem_nil, false_or]
    tauto
  · unfold bindMaterialUniforms
    simp only [length_writeIfPresent, List.length_nil, Nat.zero_add]

/-! ## The handles of a constructed substrate -/

theorem range_kMaxLights : List.range kMaxLights = [0, 1, 2, 3] := by decide

theorem addLightUniforms_uniforms (p : VROShaderProgram) (i : Nat) :
    addLightUniforms p i = { p with uniforms := p.uniforms ++ lightDeclarations i } := by
  simp [addLightUniforms, VROShaderProgram.addUniform, lightDeclarations, freshProgram,
    List.append_assoc]

theorem length_lightDeclarations (i : Nat) : (lightDeclarations i).length = 9 := by
  simp [lightDeclarations, addLightUniforms, VROShaderProgram.addUniform, freshProgram]

theorem addUniforms_fresh (self : VROMaterialSubstrateOpenGL) (v f : String)
    (samplers : List String) (id : Nat) :
    addUniforms self (freshProgram v f samplers id)
      = (withDeclaredHandles self,
          { freshProgram v f samplers id with uniforms := declaredUniforms }) := by
  unfold addUniforms declaredUniforms addUniforms
  simp only [range_kMaxLights, List.foldl, addLightUniforms_uniforms,
    VROShaderProgram.addUniform, freshProgram, withDeclaredHandles, List.length_append,
    length_lightDeclarations, List.length_cons, List.length_nil, List.nil_append]

/-! ## The variants of the pool -/

/-- The names and sampler names of the resolution are those of the canonical
material with the same lighting model and content types. -/
theorem resolve_canonical (m : VROMaterial) :
    (resolve m).vertexShader
      = (resolve (canonicalMaterial m.lightingModel m.diffuse.contentsType
          m.specular.contentsType m.reflective.contentsType)).vertexShader ∧
    (resolve m).fragmentShader
      = (resolve (canonicalMaterial m.lightingModel m.diffuse.contentsType
          m.specular.contentsType m.reflective.contentsType)).fragmentShader ∧
    (resolve m).samplers
      = (resolve (canonicalMaterial m.lightingModel m.diffuse.contentsType
          m.specular.contentsType m.reflective.contentsType)).samplers := by
  obtain ⟨model, ⟨dt, _, _, _⟩, ⟨st, _, _, _⟩, ⟨rt, _, _, _⟩, _, _, _, _⟩ := m
  cases model <;> cases dt <;> cases st <;> cases rt <;>
    simp [resolve, constantChoice, lambertChoice, phongChoice, blinnChoice, canonicalMaterial]

theorem variantOf_canonical (m : VROMaterial) :
    materialPooledName m
      = materialPooledName (canonicalMaterial m.lightingModel m.diffuse.contentsType
          m.specular.contentsType m.reflective.contentsType) ∧
    variantOf m
      = variantOf (canonicalMaterial m.lightingModel m.diffuse.contentsType
          m.specular.contentsType m.reflective.contentsType) := by
  obtain ⟨h1, h2, h3⟩ := resolve_canonical m
  unfold materialPooledName variantOf
  rw [h1, h2, h3]
  exact ⟨rfl, rfl⟩

theorem variantTable_canonical (model : VROLightingModel)
    (diffuse specular reflective : VROContentsType) :
    variantTable.lookup (materialPooledName (canonicalMaterial model diffuse specular reflective))
      = some (variantOf (canonicalMaterial model diffuse specular reflective)) := by
  cases model <;> cases diffuse <;> cases specular <;> cases reflective <;> decide

/-- The pool name of a material determines its variant. -/
theorem variantTable_lookup (m : VROMaterial) :
    variantTable.lookup (materialPooledName m) = some (variantOf m) := by
  obtain ⟨h1, h2⟩ := variantOf_canonical m
  rw [h1, h2]
  exact variantTable_canonical _ _ _ _

theorem variantOf_eq_of_pooledName (m₁ m₂ : VROMaterial)
    (h : materialPooledName m₁ = materialPooledName m₂) : variantOf m₁ = variantOf m₂ := by
  have h₁ := variantTable_lookup m₁
  rw [h, variantTable_lookup m₂] at h₁
  exact (Option.some.inj h₁).symm

/-! ## The shininess uniform -/

theorem declaredUniforms_length : declaredUniforms.length = 47 := by decide

theorem firstUseProgram_eq (m : VROMaterial) (ref : Nat) :
    firstUseProgram m ref
      = { vertexShader := (resolve m).vertexShader
          fragmentShader := (resolve m).fragmentShader
          capabilities := [VROShaderMask.Tex, VROShaderMask.Norm]
          samplers := (resolve m).samplers
          uniforms := declaredUniforms ++ (if usesShininess m then [shininessDeclaration] else [])
          hydrated := true
          hydrations := 1
          shaderId := ref } := by
  unfold firstUseProgram
  simp only [addUniforms_fresh]
  split <;>
    simp [hydrateProgram, VROShaderProgram.hydrate, VROShaderProgram.addUniform, freshProgram,
      shininessDeclaration]

/-- The handles found by name in the uniform table of a program that went
through `addUniforms`, without and with the shininess uniform. -/
theorem findIdx_declaredUniforms :
    (∀ extra : List VROUniform,
      (declaredUniforms ++ extra).findIdx? (fun u => u.name == "material_diffuse_surface_color")
        = some 44 ∧
      (declaredUniforms ++ extra).findIdx? (fun u => u.name == "material_diffuse_intensity")
        = some 45 ∧
      (declaredUniforms ++ extra).findIdx? (fun u => u.name == "material_alpha") = some 46 ∧
      (declaredUniforms ++ extra).findIdx? (fun u => u.name == "normal_matrix") = some 39 ∧
      (declaredUniforms ++ extra).findIdx? (fun u => u.name == "model_matrix") = some 40 ∧
      (declaredUniforms ++ extra).findIdx? (fun u => u.name == "modelview_matrix") = some 41 ∧
      (declaredUniforms ++ extra).findIdx? (fun u => u.name == "modelview_projection_matrix")
        = some 42 ∧
      (declaredUniforms ++ extra).findIdx? (fun u => u.name == "camera_position") = some 43) ∧
    (declaredUniforms ++ [shininessDeclaration]).findIdx? (fun u => u.name == "material_shininess")
      = some 47 := by
  have key : ∀ (name : String) (i : Nat) (extra : List VROUniform),
      declaredUniforms.findIdx? (fun u => u.name == name) = some i →
      (declaredUniforms ++ extra).findIdx? (fun u => u.name == name) = some i := by
    intro name i extra h
    rw [List.findIdx?_append, h]
    rfl
  refine ⟨fun extra => ⟨key _ _ _ (by decide), key _ _ _ (by decide), key _ _ _ (by decide),
    key _ _ _ (by decide), key _ _ _ (by decide), key _ _ _ (by decide), key _ _ _ (by decide),
    key _ _ _ (by decide)⟩, by decide⟩

/-- A construction that finds, under its pool name, the program an earlier
construction of the same variant left there, ends with the same handles as
the construction that made the program. -/
theorem laterUseSubstrate_firstUseProgram (m m₀ : VROMaterial) (ref : Nat)
    (h : usesShininess m₀ ↔ usesShininess m) :
    laterUseSubstrate m ref (firstUseProgram m₀ ref) = resolvedSubstrate m ref := by
  obtain ⟨hall, hshiny⟩ := findIdx_declaredUniforms
  rw [firstUseProgram_eq]
  unfold laterUseSubstrate resolvedSubstrate withDeclaredHandles loadUniforms
    VROShaderProgram.getUniform
  by_cases hs : usesShininess m
  · have hs₀ : usesShininess m₀ := h.mpr hs
    obtain ⟨h1, h2, h3, h4, h5, h6, h7, h8⟩ := hall [shininessDeclaration]
    simp only [hs, hs₀, if_true, h1, h2, h3, h4, h5, h6, h7, h8, hshiny]
  · have hs₀ : ¬ usesShininess m₀ := fun h' => hs (h.mp h')
    obtain ⟨h1, h2, h3, h4, h5, h6, h7, h8⟩ := hall []
    simp only [hs, hs₀, if_false, h1, h2, h3, h4, h5, h6, h7, h8]
    rfl

/-- The substrate of a construction whose pool name is unbound. -/
theorem construct_miss_substrate (m : VROMaterial) (w : World)
    (h : w.sharedPrograms.lookup (materialPooledName m) = none) :
    (construct m w).1 = resolvedSubstrate m w.programs.length := by
  rw [construct_eq_resolve]
  unfold loadTail resolvedSubstrate boundSubstrate
  by_cases hs : usesShininess m
  · have hs' := hs
    unfold usesShininess at hs'
    rw [if_pos hs', loadPooledShiny_miss _ _ _ h]
    simp only [addUniforms_fresh, VROShaderProgram.addUniform, declaredUniforms_length,
      withDeclaredHandles, VROMaterialSubstrateOpenGL.initial, List.nil_append, if_pos hs]
  · have hs' := hs
    unfold usesShininess at hs'
    rw [if_neg hs', loadPooled_miss _ _ _ h]
    simp only [addUniforms_fresh, withDeclaredHandles, VROMaterialSubstrateOpenGL.initial,
      List.nil_append, if_neg hs]

theorem World.made_empty : World.empty.Made := by
  intro name ref h
  cases h

theorem usesShininess_iff_of_pooledName (m₁ m₂ : VROMaterial)
    (h : materialPooledName m₁ = materialPooledName m₂) :
    usesShininess m₁ ↔ usesShininess m₂ := by
  have hv := congrArg Variant.shininess (variantOf_eq_of_pooledName m₁ m₂ h)
  simp only [variantOf, decide_eq_decide] at hv
  exact hv

/-- The substrate and the state after a construction whose pool name is
bound, on a state where the pool holds the programs of first
constructions. -/
theorem construct_hit_substrate (m : VROMaterial) (w : World) (ref : Nat) (hw : w.Made)
    (h : w.sharedPrograms.lookup (materialPooledName m) = some ref) :
    construct m w = (resolvedSubstrate m ref, w) := by
  obtain ⟨m₀, hkey, hp⟩ := hw _ _ h
  have hh : (firstUseProgram m₀ ref).hydrated = true := by rw [firstUseProgram_eq]
  rw [construct_hit m w ref _ h hp hh,
    laterUseSubstrate_firstUseProgram m m₀ ref (usesShininess_iff_of_pooledName m₀ m hkey)]

theorem construct_made (m : VROMaterial) (w : World) (hw : w.Made) :
    (construct m w).2.Made := by
  rcases lookup_eq_none_or_some (materialPooledName m) w.sharedPrograms with h | ⟨ref, h⟩
  · obtain ⟨_, e⟩ := construct_miss m w h
    rw [e]
    intro name r hl
    by_cases hn : name = materialPooledName m
    · subst hn
      simp only [List.lookup_cons, beq_self_eq_true] at hl
      have hr : w.programs.length = r := Option.some.inj hl
      subst hr
      exact ⟨m, rfl, by simp⟩
    · have hb : (name == materialPooledName m) = false := by simp [hn]
      simp only [List.lookup_cons, hb] at hl
      obtain ⟨m₀, hkey, hp⟩ := hw name r hl
      refine ⟨m₀, hkey, ?_⟩
      have hlt : r < w.programs.length := by
        by_contra hge
        rw [List.getElem?_eq_none (by omega)] at hp
        exact Option.noConfusion hp
      rw [List.getElem?_append_left hlt]
      exact hp
  · rw [construct_hit_substrate m w ref hw h]
    exact hw

theorem constructAll_made (materials : List VROMaterial) (w : World) (hw : w.Made) :
    (constructAll materials w).Made := by
  induction materials generalizing w with
  | nil => exact hw
  | cons m rest ih =>
    have hstep : constructAll (m :: rest) w = constructAll rest (construct m w).2 := by
      simp [constructAll]
    rw [hstep]
    exact ih _ (construct_made m w hw)

/-- Every construction of a run from process start ends with the handles of
`resolvedSubstrate`, at the reference of its program. -/
theorem construct_resolvedSubstrate (materials : List VROMaterial) (m : VROMaterial) :
    ∃ ref, (construct m (constructAll materials World.empty)).1 = resolvedSubstrate m ref := by
  have hw := constructAll_made materials World.empty World.made_empty
  rcases lookup_eq_none_or_some (materialPooledName m)
    (constructAll materials World.empty).sharedPrograms with h | ⟨ref, h⟩
  · exact ⟨_, construct_miss_substrate m _ h⟩
  · exact ⟨ref, by rw [construct_hit_substrate m _ ref hw h]⟩

theorem addUniforms_shininess (self : VROMaterialSubstrateOpenGL) (p : VROShaderProgram) :
    (addUniforms self p).1.shininessUniform = self.shininessUniform := by
  simp only [addUniforms]

theorem loadPooled_shininess (c : ShaderChoice) (self : VROMaterialSubstrateOpenGL) (w : World) :
    (loadPooled c self w).1.shininessUniform = self.shininessUniform := by
  unfold loadPooled
  simp only
  split
  · rfl
  · split
    · simp only [addUniforms_shininess]
    · rfl

theorem bindMaterialUniforms_resolvedSubstrate (M : Type) (m : VROMaterial) (ref : Nat)
    (opacity : Float32) :
    bindMaterialUniforms M (resolvedSubstrate m ref) opacity
      = [(44, UniformValue.vec4 m.diffuse.contentsColor),
         (45, UniformValue.float m.diffuse.intensity),
         (46, UniformValue.float (m.transparency * opacity))]
        ++ (if usesShininess m then [(47, UniformValue.float m.shininess)] else []) := by
  unfold bindMaterialUniforms resolvedSubstrate withDeclaredHandles boundSubstrate
  by_cases hs : usesShininess m <;>
    simp [hs, writeIfPresent, VROMaterialSubstrateOpenGL.initial]

/-- Claim C18. The shininess uniform is declared only for the Phong and Blinn
models. A material that goes through the Constant or Lambert tail, a Phong
or Blinn material without a 2D specular texture included, gets a substrate
without shininess handle on every state of the pool, and
`bindMaterialUniforms` sets the diffuse colour, the intensity and the alpha
only. A Phong or Blinn material with a 2D specular texture gets, in every
run of constructions from process start, the shininess handle at position
47 of the uniform table, whether its construction made and hydrated the
program or found it hydrated, and `bindMaterialUniforms` sets the shininess
on it. -/
theorem C18_shininess_handle (M : Type) (materials : List VROMaterial) (m : VROMaterial)
    (opacity : Float32) :
    ((m.lightingModel = VROLightingModel.Constant ∨ m.lightingModel = VROLightingModel.Lambert ∨
        m.specular.contentsType ≠ VROContentsType.Texture2D) →
      (∀ w : World, (construct m w).1.shininessUniform = none) ∧
      bindMaterialUniforms M (construct m (constructAll materials World.empty)).1 opacity
        = [(44, UniformValue.vec4 m.diffuse.contentsColor),
           (45, UniformValue.float m.diffuse.intensity),
           (46, UniformValue.float (m.transparency * opacity))]) ∧
    ((m.lightingModel = VROLightingModel.Phong ∨ m.lightingModel = VROLightingModel.Blinn) ∧
        m.specular.contentsType = VROContentsType.Texture2D →
      (construct m (constructAll materials World.empty)).1.shininessUniform = some 47 ∧
      bindMaterialUniforms M (construct m (constructAll materials World.empty)).1 opacity
        = [(44, UniformValue.vec4 m.diffuse.contentsColor),
           (45, UniformValue.float m.diffuse.intensity),
           (46, UniformValue.float (m.transparency * opacity)),
           (47, UniformValue.float m.shininess)]) := by
  obtain ⟨ref, hsub⟩ := construct_resolvedSubstrate materials m
  constructor
  · intro h
    have hs : ¬ usesShininess m := by
      unfold usesShininess
      rcases h with h | h | h
      · rw [h]; simp
      · rw [h]; simp
      · exact fun h' => h h'.2
    constructor
    · intro w
      have hs' := hs
      unfold usesShininess at hs'
      rw [construct_eq_resolve]
      unfold loadTail
      rw [if_neg hs', loadPooled_shininess]
      rfl
    · rw [hsub, bindMaterialUniforms_resolvedSubstrate, if_neg hs, List.append_nil]
  · intro h
    have hs : usesShininess m := h
    constructor
    · rw [hsub]
      unfold resolvedSubstrate
      simp only [if_pos hs]
    · rw [hsub, bindMaterialUniforms_resolvedSubstrate, if_pos hs]
      rfl

/-- Witness of C18: after a Lambert and a Phong construction from process
start, a Phong material that falls back to Lambert has no shininess handle,
and a second Phong material with a specular map, which finds its program
hydrated, has the handle 47. -/
theorem C18_shininess_handle_witness :
    (construct
        (sampleMaterial VROLightingModel.Phong fixedVisual fixedVisual fixedVisual)
        (constructAll
          [sampleMaterial VROLightingModel.Lambert fixedVisual fixedVisual fixedVisual,
            sampleMaterial VROLightingModel.Phong (textureVisual 7) (textureVisual 3) fixedVisual]
          World.empty)).1.shininessUniform = none ∧
    (construct
        (sampleMaterial VROLightingModel.Phong (textureVisual 8) (textureVisual 4) fixedVisual)
        (constructAll
          [sampleMaterial VROLightingModel.Lambert fixedVisual fixedVisual fixedVisual,
            sampleMaterial VROLightingModel.Phong (textureVisual 7) (textureVisual 3) fixedVisual]
          World.empty)).1.shininessUniform = some 47 :=
  ⟨((C18_shininess_handle MatrixTerm
      [sampleMaterial VROLightingModel.Lambert fixedVisual fixedVisual fixedVisual,
        sampleMaterial VROLightingModel.Phong (textureVisual 7) (textureVisual 3) fixedVisual]
      (sampleMaterial VROLightingModel.Phong fixedVisual fixedVisual fixedVisual) 1).1
        (Or.inr (Or.inr (by decide)))).1 _,
    ((C18_shininess_handle MatrixTerm
      [sampleMaterial VROLightingModel.Lambert fixedVisual fixedVisual fixedVisual,
        sampleMaterial VROLightingModel.Phong (textureVisual 7) (textureVisual 3) fixedVisual]
      (sampleMaterial VROLightingModel.Phong (textureVisual 8) (textureVisual 4) fixedVisual)
      1).2 ⟨Or.inl rfl, rfl⟩).1⟩

/-! ## The layout of the lighting block -/

/-- Claim C19. With 4-byte ints and floats the lighting block is made of
16-byte groups with explicit padding: the light count is at offset 0,
followed by three padding floats, the ambient colour is at offset 16, the
light record `i` starts at offset `32 + 80 * i` for `i` in 0..7; inside each
80-byte record the groups start at offsets 0 (type and the attenuation
triple), 16 (position), 32 (direction), 48 (colour and inner angle) and 64
(outer angle and three padding floats); and the record written to the GPU is
672 bytes. No padding is inserted by the layout rule. -/
theorem C19_lighting_block_layout :
    lightingDataMembers.offsetFrom 0 "num_lights" = some 0 ∧
    lightingDataMembers.offsetFrom 0 "padding0" = some 4 ∧
    lightingDataMembers.offsetFrom 0 "padding1" = some 8 ∧
    lightingDataMembers.offsetFrom 0 "padding2" = some 12 ∧
    lightingDataMembers.offsetFrom 0 "ambient_light_color" = some 16 ∧
    lightingDataMembers.offsetFrom 0 "lights" = some 32 ∧
    (CType.struct lightDataMembers).size = 80 ∧
    (∀ i, i < 8 → lightRecordOffset i = some (32 + 80 * i)) ∧
    lightDataMembers.offsetFrom 0 "type" = some 0 ∧
    lightDataMembers.offsetFrom 0 "attenuation_start_distance" = some 4 ∧
    lightDataMembers.offsetFrom 0 "attenuation_end_distance" = some 8 ∧
    lightDataMembers.offsetFrom 0 "attenuation_falloff_exp" = some 12 ∧
    lightDataMembers.offsetFrom 0 "position" = some 16 ∧
    lightDataMembers.offsetFrom 0 "direction" = some 32 ∧
    lightDataMembers.offsetFrom 0 "color" = some 48 ∧
    lightDataMembers.offsetFrom 0 "spot_inner_angle" = some 60 ∧
    lightDataMembers.offsetFrom 0 "spot_outer_angle" = some 64 ∧
    lightDataMembers.offsetFrom 0 "padding3" = some 68 ∧
    lightDataMembers.offsetFrom 0 "padding4" = some 72 ∧
    lightDataMembers.offsetFrom 0 "padding5" = some 76 ∧
    lightingBufferSize = 672 := by
  have hbase : lightingDataMembers.offsetFrom 0 "lights" = some 32 := by decide
  have hsize : (CType.struct lightDataMembers).size = 80 := by decide
  have hrecords : ∀ i, i < 8 → lightRecordOffset i = some (32 + 80 * i) := by
    intro i _
    unfold lightRecordOffset
    rw [hbase, hsize, Option.map_some', Nat.mul_comm]
  refine ⟨?_, ?_, ?_, ?_, ?_, hbase, hsize, hrecords, ?_⟩
  all_goals decide

/-- Witness of C19: the light record of index 3 starts at offset 272. -/
theorem C19_lighting_block_layout_witness : lightRecordOffset 3 = some (32 + 80 * 3) :=
  C19_lighting_block_layout.2.2.2.2.2.2.2.1 3 (by decide)

/-! ## Pooling and samplers -/

/-- Claim C20. Pooling is sound with respect to samplers: two materials, of
any lighting model and channel configuration, whose resolution yields the
same vertex and fragment shader names, hand the same ordered sampler names to
`getPooledShader`; and in every run of constructions from process start, the
program a construction finds under its pool name was created with the
sampler names of that construction. -/
theorem C20_pooling_sound_for_samplers (m₁ m₂ : VROMaterial) (materials : List VROMaterial)
    (hv : (resolve m₁).vertexShader = (resolve m₂).vertexShader)
    (hf : (resolve m₁).fragmentShader = (resolve m₂).fragmentShader) :
    (resolve m₁).samplers = (resolve m₂).samplers ∧
    (∀ ref, (constructAll materials World.empty).sharedPrograms.lookup (materialPooledName m₁)
        = some ref →
      ∃ program, (constructAll materials World.empty).programs[ref]? = some program ∧
        program.samplers = (resolve m₁).samplers) := by
  constructor
  · have hkey : materialPooledName m₁ = materialPooledName m₂ := by
      unfold materialPooledName
      rw [hv, hf]
    exact congrArg Variant.samplers (variantOf_eq_of_pooledName m₁ m₂ hkey)
  · intro ref h
    obtain ⟨m₀, hkey, hp⟩ := constructAll_made materials World.empty World.made_empty _ _ h
    refine ⟨_, hp, ?_⟩
    rw [firstUseProgram_eq]
    exact congrArg Variant.samplers (variantOf_eq_of_pooledName m₀ m₁ hkey)

/-- Witness of C20: a Phong material without specular map and a Lambert
material, both with a textured diffuse channel, resolve to the same names
and hand the same samplers to the pool. -/
theorem C20_pooling_sound_for_samplers_witness :
    (resolve (sampleMaterial VROLightingModel.Phong (textureVisual 7) fixedVisual
        fixedVisual)).samplers
      = (resolve (sampleMaterial VROLightingModel.Lambert (textureVisual 9) (textureVisual 3)
        fixedVisual)).samplers :=
  (C20_pooling_sound_for_samplers
    (sampleMaterial VROLightingModel.Phong (textureVisual 7) fixedVisual fixedVisual)
    (sampleMaterial VROLightingModel.Lambert (textureVisual 9) (textureVisual 3) fixedVisual)
    [] (by decide) (by decide)).1

/-! ## Samplers and textures -/

/-- The textures of the resolution are, position by position, the contents
textures of the channels the sampler names stand for. -/
theorem resolve_textures_aligned (m : VROMaterial) :
    (resolve m).textures.map some
      = (resolve m).samplers.map
          (fun name => (samplerChannel m name).map (fun c => c.contentsTexture)) ∧
    (resolve m).samplers.length ≤ 3 := by
  obtain ⟨model, ⟨dt, _, _, _⟩, ⟨st, _, _, _⟩, ⟨rt, _, _, _⟩, _, _, _, _⟩ := m
  cases model <;> cases dt <;> cases st <;> cases rt <;>
    simp [resolve, constantChoice, lambertChoice, phongChoice, blinnChoice, samplerChannel]

/-- Claim C21. Textures and samplers stay aligned: for every material with
one of the four lighting models, on every state of the pool, the bound
texture list of the constructed substrate has the length of the sampler-name
list built during resolution, at most 3, and at every position the texture
is the contents texture of the channel the sampler at that position names:
diffuse for `sampler`, `texture` and `diffuse_texture`, specular for
`specular_texture`, reflective for `reflect_texture`. -/
theorem C21_textures_aligned_with_samplers (m : VROMaterial) (w : World) :
    (construct m w).1.textures.length = (resolve m).samplers.length ∧
    (resolve m).samplers.length ≤ 3 ∧
    (∀ (i : Nat) (name : String), (resolve m).samplers[i]? = some name →
      ∃ channel, samplerChannel m name = some channel ∧
        (construct m w).1.textures[i]? = some channel.contentsTexture) := by
  obtain ⟨hmap, hlen⟩ := resolve_textures_aligned m
  rw [construct_textures]
  refine ⟨?_, hlen, ?_⟩
  · have h := congrArg List.length hmap
    simpa using h
  · intro i name hi
    have h := congrArg (fun l => l[i]?) hmap
    simp only [List.getElem?_map, hi, Option.map_some'] at h
    cases hc : samplerChannel m name with
    | none =>
      rw [hc] at h
      cases ht : (resolve m).textures[i]? with
      | none => rw [ht] at h; simp at h
      | some t => rw [ht] at h; simp at h
    | some channel =>
      rw [hc] at h
      refine ⟨channel, rfl, ?_⟩
      cases ht : (resolve m).textures[i]? with
      | none => rw [ht] at h; simp at h
      | some t =>
        rw [ht] at h
        simp only [Option.map_some', Option.some.injEq] at h
        rw [h]

/-- Witness of C21: in the substrate of a Phong material with textured
diffuse and specular channels, position 1 holds the texture of the specular
channel, which `specular_texture` names. -/
theorem C21_textures_aligned_with_samplers_witness :
    ∃ channel,
      samplerChannel
          (sampleMaterial VROLightingModel.Phong (textureVisual 7) (textureVisual 3) fixedVisual)
          "specular_texture" = some channel ∧
        (construct
          (sampleMaterial VROLightingModel.Phong (textureVisual 7) (textureVisual 3) fixedVisual)
          World.empty).1.textures[1]? = some channel.contentsTexture :=
  (C21_textures_aligned_with_samplers
    (sampleMaterial VROLightingModel.Phong (textureVisual 7) (textureVisual 3) fixedVisual)
    World.empty).2.2 1 "specular_texture" (by decide)

/-! ## Pool names of the resolver -/

/-- After a construction on a state where the pool holds the programs of
first constructions, the substrate has a program, and it is the one bound to
the pool name of the material. -/
theorem construct_program_lookup (m : VROMaterial) (w : World) (hw : w.Made) :
    ∃ ref, (construct m w).1.program = some ref ∧
      (construct m w).2.sharedPrograms.lookup (materialPooledName m) = some ref := by
  rcases lookup_eq_none_or_some (materialPooledName m) w.sharedPrograms with h | ⟨ref, h⟩
  · obtain ⟨e₁, e₂⟩ := construct_miss m w h
    refine ⟨w.programs.length, e₁, ?_⟩
    rw [e₂]
    simp only [List.lookup_cons, beq_self_eq_true]
  · rw [construct_hit_substrate m w ref hw h]
    exact ⟨ref, rfl, h⟩

/-- A construction never rebinds a pool name that is bound. -/
theorem construct_keeps (m : VROMaterial) (w : World) (hw : w.Made) (name : String) (ref : Nat)
    (h : w.sharedPrograms.lookup name = some ref) :
    (construct m w).2.sharedPrograms.lookup name = some ref := by
  rcases lookup_eq_none_or_some (materialPooledName m) w.sharedPrograms with h' | ⟨r, h'⟩
  · obtain ⟨_, e⟩ := construct_miss m w h'
    rw [e]
    have hne : name ≠ materialPooledName m := by
      intro heq; rw [heq, h'] at h; exact Option.noConfusion h
    have hb : (name == materialPooledName m) = false := by simp [hne]
    simp only [List.lookup_cons, hb, h]
  · rw [construct_hit_substrate m w r hw h']
    exact h

theorem constructAll_keeps (materials : List VROMaterial) (w : World) (hw : w.Made)
    (name : String) (ref : Nat) (h : w.sharedPrograms.lookup name = some ref) :
    (constructAll materials w).sharedPrograms.lookup name = some ref := by
  induction materials generalizing w with
  | nil => exact h
  | cons m rest ih =>
    have hstep : constructAll (m :: rest) w = constructAll rest (construct m w).2 := by
      simp [constructAll]
    rw [hstep]
    exact ih _ (construct_made m w hw) (construct_keeps m w hw name ref h)

/-- On a state where the pool holds the programs of first constructions, two
pool names bound to the same reference are the same name. -/
theorem World.Made.lookup_injective (w : World) (hw : w.Made) (name₁ name₂ : String) (ref : Nat)
    (h₁ : w.sharedPrograms.lookup name₁ = some ref)
    (h₂ : w.sharedPrograms.lookup name₂ = some ref) : name₁ = name₂ := by
  obtain ⟨m₁, k₁, p₁⟩ := hw _ _ h₁
  obtain ⟨m₂, k₂, p₂⟩ := hw _ _ h₂
  rw [p₁] at p₂
  have hp := Option.some.inj p₂
  rw [firstUseProgram_eq, firstUseProgram_eq] at hp
  have hv := congrArg VROShaderProgram.vertexShader hp
  have hf := congrArg VROShaderProgram.fragmentShader hp
  simp only at hv hf
  rw [← k₁, ← k₂]
  unfold materialPooledName
  rw [hv, hf]

/-- Claim C22. On the names the resolver produces the cache key is
injective: two materials whose resolution yields different pairs of vertex
and fragment names have different keys `vertex + "_" + fragment`, and in
every run of constructions from process start, with any constructions
between the two, their substrates hold different programs. -/
theorem C22_resolver_keys_injective (m₁ m₂ : VROMaterial) (before between : List VROMaterial)
    (hne : ((resolve m₁).vertexShader, (resolve m₁).fragmentShader)
      ≠ ((resolve m₂).vertexShader, (resolve m₂).fragmentShader)) :
    pooledName (resolve m₁).vertexShader (resolve m₁).fragmentShader
      ≠ pooledName (resolve m₂).vertexShader (resolve m₂).fragmentShader ∧
    (∃ ref₁ ref₂,
      (construct m₁ (constructAll before World.empty)).1.program = some ref₁ ∧
      (construct m₂ (constructAll between
        (construct m₁ (constructAll before World.empty)).2)).1.program = some ref₂ ∧
      ref₁ ≠ ref₂) := by
  have hkey : materialPooledName m₁ ≠ materialPooledName m₂ := by
    intro h
    have hv := variantOf_eq_of_pooledName m₁ m₂ h
    have h₁ : (resolve m₁).vertexShader = (resolve m₂).vertexShader :=
      congrArg Variant.vertexShader hv
    have h₂ : (resolve m₁).fragmentShader = (resolve m₂).fragmentShader :=
      congrArg Variant.fragmentShader hv
    apply hne
    rw [h₁, h₂]
  refine ⟨hkey, ?_⟩
  have hw₀ := constructAll_made before World.empty World.made_empty
  obtain ⟨ref₁, hp₁, hl₁⟩ := construct_program_lookup m₁ _ hw₀
  have hw₁ := construct_made m₁ _ hw₀
  have hw₂ := constructAll_made between _ hw₁
  have hl₁' := constructAll_keeps between _ hw₁ _ _ hl₁
  obtain ⟨ref₂, hp₂, hl₂⟩ := construct_program_lookup m₂ _ hw₂
  have hl₁'' := construct_keeps m₂ _ hw₂ _ _ hl₁'
  refine ⟨ref₁, ref₂, hp₁, hp₂, ?_⟩
  intro heq
  rw [heq] at hl₁''
  exact hkey (World.Made.lookup_injective _ (construct_made m₂ _ hw₂) _ _ ref₂ hl₁'' hl₂)

/-- Witness of C22: a Lambert material with a fixed and one with a textured
diffuse channel have different pool names. -/
theorem C22_resolver_keys_injective_witness :
    pooledName "lambert_vsh" "lambert_c_fsh" ≠ pooledName "lambert_vsh" "lambert_t_fsh" :=
  (C22_resolver_keys_injective
    (sampleMaterial VROLightingModel.Lambert fixedVisual fixedVisual fixedVisual)
    (sampleMaterial VROLightingModel.Lambert (textureVisual 7) fixedVisual fixedVisual)
    [] [] (by decide)).1

/-! ## The sfnt header of `getFontData` -/

theorem floorLog2Aux_spec (fuel n : Nat) (hn : 1 ≤ n) (hf : n ≤ fuel) :
    2 ^ floorLog2Aux fuel n ≤ n ∧ n < 2 ^ (floorLog2Aux fuel n + 1) := by
  induction fuel generalizing n with
  | zero => omega
  | succ fuel ih =>
    unfold floorLog2Aux
    by_cases h : n < 2
    · rw [if_pos h]
      constructor
      · simpa using hn
      · simpa using h
    · rw [if_neg h]
      obtain ⟨h₁, h₂⟩ := ih (n / 2) (by omega) (by omega)
      rw [pow_succ, pow_succ]
      constructor <;> omega

/-- The exponent `floorLog2 n` is the one of the largest power of two that is
at most `n`: the logarithm of `n` to base 2, rounded down. -/
theorem floorLog2_spec (n : Nat) (hn : 1 ≤ n) :
    2 ^ floorLog2 n ≤ n ∧ n < 2 ^ (floorLog2 n + 1) ∧ floorLog2 n = Nat.log 2 n := by
  obtain ⟨h₁, h₂⟩ := floorLog2Aux_spec n n hn (le_refl n)
  refine ⟨h₁, h₂, ?_⟩
  symm
  rw [Nat.log_eq_iff (Or.inr ⟨by norm_num, by omega⟩)]
  exact ⟨h₁, h₂⟩

/-- Where the header of `getFontData` is the one of the definition, for up
to 63 tables: with one table, and whenever the number of tables is neither a
power of two nor one more than a power of two. -/
theorem fontHeader_agrees_iff :
    ∀ n, n < 64 → 1 ≤ n →
      (fontHeader n = some (sfntHeader n) ↔
        (n = 1 ∨ (n ≠ 2 ^ floorLog2 n ∧ n ≠ 2 ^ floorLog2 n + 1))) := by
  decide

/-- Claim C23, the code at nine tables: `getFontData` computes the search
range 64, the entry selector 2 and the range shift 80, where the definition
of the sfnt offset table gives 128, 3 and 16, the largest power of two that
is at most 9 being 8. The two differ at 2 and at 16 tables as well, and
agree at 1 and at 6 tables. -/
theorem C23_header_of_nine_tables :
    fontHeader 9 = some ⟨9, 64, 2, 80⟩ ∧ sfntHeader 9 = ⟨9, 128, 3, 16⟩ ∧
    fontHeader 9 ≠ some (sfntHeader 9) ∧
    fontHeader 2 = some ⟨2, 16, 0, 16⟩ ∧ sfntHeader 2 = ⟨2, 32, 1, 0⟩ ∧
    fontHeader 16 = some ⟨16, 128, 3, 128⟩ ∧ sfntHeader 16 = ⟨16, 256, 4, 0⟩ ∧
    fontHeader 1 = some (sfntHeader 1) ∧ fontHeader 6 = some (sfntHeader 6) := by
  decide

end ViroRenderer
